import Mathlib

/-!
Verification development for the WikidataMCP repository.

The Python sources are shallowly embedded:
pure functions become Lean functions, Python exceptions become `Except PyErr`,
the mutable dictionary of `WikidataEntity` objects shared during one parse
becomes an arena (`St.arena`) together with an association table
(`St.table`) mapping entity ids to arena indices, and every HTTP request
becomes an explicit oracle parameter that stands for the upstream response.
-/

set_option maxRecDepth 10000

/-- Model of the Python exceptions this code can raise. -/
inductive PyErr where
  | valueError (msg : String)
  | keyError (key : String)
  | typeError (msg : String)
  | indexError (msg : String)
  | attributeError (msg : String)
  | httpError (status : Nat)
  deriving Repr, DecidableEq

/-- Model of a JSON-like Python value as it appears in snak payloads.
JSON floats, booleans and nulls do not occur in any code path the claims
exercise and are not modelled. -/
inductive Jv where
  | str (s : String)
  | int (n : Int)
  | dict (fields : List (String × Jv))
  | list (elems : List Jv)

/-- Association-list lookup, the model of reading a Python dict. -/
def dlookup {α β : Type} [DecidableEq α] : List (α × β) → α → Option β
  | [], _ => none
  | (k, v) :: rest, key => if k = key then some v else dlookup rest key

/-- Association-list assignment, the model of `d[k] = v` on a Python dict:
replace the binding when the key is present, append it otherwise. -/
def dictSet {α β : Type} [DecidableEq α] : List (α × β) → α → β → List (α × β)
  | [], key, v => [(key, v)]
  | (k, w) :: rest, key, v =>
      if k = key then (k, v) :: rest else (k, w) :: dictSet rest key v

/-- Python `d[k]`: the value, or a `KeyError` carrying a rendering of the key. -/
def pyIndex (d : List (String × Jv)) (key : String) : Except PyErr Jv :=
  match dlookup d key with
  | some v => Except.ok v
  | none => Except.error (PyErr.keyError key)

/-- Python `value[k]` on an arbitrary object: a `TypeError` when the object is
not a dict, otherwise `pyIndex`. -/
def pySubscript (v : Jv) (key : String) : Except PyErr Jv :=
  match v with
  | Jv.dict d => pyIndex d key
  | _ => Except.error (PyErr.typeError ("object is not subscriptable"))

/-- Python `value.get(k)` on an arbitrary object: an `AttributeError` when the
object is not a dict. -/
def pyGet (v : Jv) (key : String) : Except PyErr (Option Jv) :=
  match v with
  | Jv.dict d => Except.ok (dlookup d key)
  | _ => Except.error (PyErr.attributeError ("object has no attribute get"))

/-- Reduction of the `Except` monad bind on a success value. -/
@[simp] theorem exceptBindOk {ε α β : Type} (a : α) (f : α → Except ε β) :
    (Except.ok a : Except ε α) >>= f = f a := rfl

/-- Reduction of the `Except` monad bind on an error value. -/
@[simp] theorem exceptBindError {ε α β : Type} (e : ε) (f : α → Except ε β) :
    (Except.error e : Except ε α) >>= f = Except.error e := rfl

mutual

/-- Python `repr` for the modelled values.  String escaping inside `repr` is
not refined further; no claim depends on it. -/
def pyRepr : Jv → String
  | Jv.str s => "'" ++ s ++ "'"
  | Jv.int n => toString n
  | Jv.dict d => "\x7b" ++ String.intercalate (", ") (pyReprFields d) ++ "\x7d"
  | Jv.list l => "[" ++ String.intercalate (", ") (pyReprList l) ++ "]"

/-- Helper of `pyRepr` for dict entries. -/
def pyReprFields : List (String × Jv) → List String
  | [] => []
  | (k, v) :: rest => ("'" ++ k ++ "': " ++ pyRepr v) :: pyReprFields rest

/-- Helper of `pyRepr` for list elements. -/
def pyReprList : List Jv → List String
  | [] => []
  | v :: rest => pyRepr v :: pyReprList rest

end

/-- Python `str` applied to a modelled value. -/
def pyStr : Jv → String
  | Jv.str s => s
  | v => pyRepr v

/-- Decide whether `pat` is a prefix of `hay` (over character lists). -/
def listIsPre : List Char → List Char → Bool
  | [], _ => true
  | _ :: _, [] => false
  | p :: ps, h :: hs => p = h && listIsPre ps hs

/-- Python `pat in s` substring containment test. -/
def strContains (hay pat : String) : Bool :=
  go hay.data pat.data
where go : List Char → List Char → Bool
  | [], p => p.isEmpty
  | h :: hs, p => listIsPre p (h :: hs) || go hs p

/-- Whitespace set of Python `str.strip()` restricted to ASCII; the claims
only exercise ASCII arguments. -/
def pyIsSpace (c : Char) : Bool :=
  c = ' ' || c = '\t' || c = '\n' || c = '\r' || c = '\x0b' || c = '\x0c'

/-- Python `s.strip()`. -/
def pyStrip (s : String) : String :=
  String.mk ((s.data.dropWhile pyIsSpace).reverse.dropWhile pyIsSpace |>.reverse)

example : pyStrip ("  a b\t\n") = "a b" := by decide
example : pyStrip ("   \t ") = "" := by decide

/-- Python `s.replace(pat, rep)`: replace every non-overlapping, leftmost
occurrence.  Fuel-indexed structural recursion (`s.length` fuel always
suffices since every round consumes at least one character); an empty
pattern, which Python treats specially, does not occur in the source. -/
def pyReplace (s pat rep : String) : String :=
  if pat.data.isEmpty then s
  else String.mk (go s.data.length s.data)
where go (fuel : Nat) (l : List Char) : List Char :=
  match fuel, l with
  | _, [] => []
  | 0, l => l
  | fuel + 1, c :: rest =>
      if listIsPre pat.data (c :: rest) then
        rep.data ++ go fuel (rest.drop (pat.data.length - 1))
      else
        c :: go fuel rest

example : pyReplace ("+1e+10") ("+") ("") = "1e10" := by decide

/-- Decide whether `suffix` ends the string (over character lists). -/
def strEndsWith (s suffix : String) : Bool :=
  listIsPre suffix.data.reverse s.data.reverse

/-! ## Embedding of the Python `datetime.date` operations used by `_time_to_text` -/

/-- Gregorian leap-year rule, as in `datetime`. -/
def isLeapYear (y : Nat) : Bool :=
  y % 4 = 0 && (y % 100 ≠ 0 || y % 400 = 0)

/-- Number of days of month `m` (1-12) in year `y`; 0 for an invalid month. -/
def daysInMonth (y m : Nat) : Nat :=
  match m with
  | 1 => 31 | 2 => if isLeapYear y then 29 else 28 | 3 => 31
  | 4 => 30 | 5 => 31 | 6 => 30 | 7 => 31 | 8 => 31
  | 9 => 30 | 10 => 31 | 11 => 30 | 12 => 31
  | _ => 0

/-- Days in year `y` strictly before month `m`. -/
def daysBeforeMonth (y m : Nat) : Nat :=
  (List.range (m - 1)).foldl (fun acc i => acc + daysInMonth y (i + 1)) 0

/-- Days strictly before January 1 of year `y` (proleptic Gregorian). -/
def daysBeforeYear (y : Nat) : Nat :=
  (y - 1) * 365 + (y - 1) / 4 - (y - 1) / 100 + (y - 1) / 400

/-- Python `date(y, m, d).toordinal()`: day 1 is 0001-01-01. -/
def dateToOrdinal (y m d : Nat) : Nat :=
  daysBeforeYear y + daysBeforeMonth y m + d

/-- Python `date.fromordinal(n)` (CPython's `_ord2ymd`), raising `ValueError`
when `n` is zero or past the year-9999 maximum. -/
def dateFromOrdinal (n : Nat) : Except PyErr (Nat × Nat × Nat) :=
  if n = 0 then Except.error (PyErr.valueError ("ordinal must be >= 1")) else
  let n0 := n - 1
  let n400 := n0 / 146097
  let r400 := n0 % 146097
  let n100 := r400 / 36524
  let r100 := r400 % 36524
  let n4 := r100 / 1461
  let r4 := r100 % 1461
  let n1 := r4 / 365
  let r1 := r4 % 365
  let year := n400 * 400 + n100 * 100 + n4 * 4 + n1 + 1
  let ymd :=
    if n1 = 4 || n100 = 4 then (year - 1, 12, 31)
    else
      let month := (r1 + 50) / 32
      let preceding := daysBeforeMonth year month
      if r1 < preceding then
        (year, month - 1, r1 - daysBeforeMonth year (month - 1) + 1)
      else
        (year, month, r1 - preceding + 1)
  if ymd.1 > 9999 then Except.error (PyErr.valueError ("year out of range"))
  else Except.ok ymd

/-- Python `date(y, m, d)` construction with its `ValueError` validation
(`datetime.MINYEAR = 1`, `MAXYEAR = 9999`). -/
def mkDate (y : Int) (m d : Nat) : Except PyErr (Nat × Nat × Nat) :=
  if y < 1 || y > 9999 then Except.error (PyErr.valueError ("year is out of range"))
  else if m < 1 || m > 12 then Except.error (PyErr.valueError ("month must be in 1..12"))
  else if d < 1 || d > daysInMonth y.toNat m then
    Except.error (PyErr.valueError ("day is out of range for month"))
  else Except.ok (y.toNat, m, d)

deriving instance DecidableEq for Except

example : dateToOrdinal 1 1 1 = 1 := by decide
example : dateToOrdinal 2000 1 1 = 730120 := by decide
example : dateFromOrdinal 730120 = Except.ok (2000, 1, 1) := by decide
example : dateFromOrdinal (dateToOrdinal 1996 12 31) = Except.ok (1996, 12, 31) := by decide
example : dateFromOrdinal (dateToOrdinal 1600 12 31) = Except.ok (1600, 12, 31) := by decide
example : dateFromOrdinal (dateToOrdinal 1582 10 15) = Except.ok (1582, 10, 15) := by decide

/-! ## Embedding of `_time_to_text` (src/wikidata/utils.py) -/

/-- Capture groups of the source's time regex
`([+-])(\d{1,16})-(\d{2})-(\d{2})T(\d{2}):(\d{2}):(\d{2})Z`.
`sign` is `true` for `+`. -/
structure TimeGroups where
  sign : Bool
  yearStr : String
  monthStr : String
  dayStr : String
  hourStr : String
  minuteStr : String
  secondStr : String
  deriving Repr, DecidableEq

/-- Numeric value of a digit string (the embedding of Python `int` on the
regex captures, which are guaranteed nonempty digit runs). -/
def digitsToNat (ds : List Char) : Nat :=
  ds.foldl (fun a c => a * 10 + (c.toNat - '0'.toNat)) 0

/-- Expect exactly two digits at the head of the character list. -/
def twoDigits : List Char → Option (String × List Char)
  | a :: b :: rest =>
      if a.isDigit && b.isDigit then some (String.mk [a, b], rest) else none
  | _ => none

/-- Expect a given literal character at the head of the list. -/
def expectChar (c : Char) : List Char → Option (List Char)
  | x :: rest => if x = c then some rest else none
  | [] => none

/-- Model of `re.match` with the source's time pattern: anchored at the start,
trailing characters after `Z` are allowed.  The greedy `\d{1,16}` year group
fails on a run of 17 or more digits (backtracking cannot help because the next
pattern character `-` is not a digit).  Python's `\d` also matches non-ASCII
digits; only ASCII inputs are exercised by the claims. -/
def matchTimePattern (s : String) : Option TimeGroups := do
  let (sc, rest) ← match s.data with
    | c :: rest => if c = '+' || c = '-' then some (c, rest) else none
    | [] => none
  let (yds, rest) := rest.span Char.isDigit
  if yds.length < 1 || yds.length > 16 then none else do
  let rest ← expectChar '-' rest
  let (mo, rest) ← twoDigits rest
  let rest ← expectChar '-' rest
  let (da, rest) ← twoDigits rest
  let rest ← expectChar 'T' rest
  let (ho, rest) ← twoDigits rest
  let rest ← expectChar ':' rest
  let (mi, rest) ← twoDigits rest
  let rest ← expectChar ':' rest
  let (se, rest) ← twoDigits rest
  let _ ← expectChar 'Z' rest
  some ⟨sc = '+', String.mk yds, mo, da, ho, mi, se⟩

/-- Day offset used by the source's Julian-to-Gregorian conversion: the
ordinal difference between the 1582-10-15/1582-10-05 cutover dates. -/
def julianOffsetDays : Nat :=
  dateToOrdinal 1582 10 15 - dateToOrdinal 1582 10 5

example : julianOffsetDays = 10 := by decide

/-- Body of the source's Julian-conversion `try` block:
`date(year, month, day)`, ordinal shift by the cutover offset,
`date.fromordinal`. -/
def julianToGregorian (y : Int) (m d : Nat) : Except PyErr (Nat × Nat × Nat) := do
  let jd ← mkDate y m d
  dateFromOrdinal (dateToOrdinal jd.1 jd.2.1 jd.2.2 + julianOffsetDays)

/-- The source's guard for applying Julian conversion:
`'Q1985786' in calendarmodel and year > 1 and len(str(abs(year))) <= 4`. -/
def julianCondB (cm : String) (year : Int) : Bool :=
  strContains cm ("Q1985786") && decide (1 < year)
    && decide ((toString year.natAbs).length ≤ 4)

/-- Parse-and-adjust phase of `_time_to_text`: parse the time string, then
either convert Julian to Gregorian (re-raising any date error as
`Invalid date for Julian calendar`) or map month/day `00` to `01`. -/
def timeAdjust (tvs cms : String) : Except PyErr (Int × Nat × Nat) :=
  match matchTimePattern tvs with
  | none => Except.error (PyErr.valueError ("Malformed time string"))
  | some g =>
      let year : Int :=
        (digitsToNat g.yearStr.data : Int) * (if g.sign then 1 else -1)
      let month : Nat := if g.monthStr = "00" then 1 else digitsToNat g.monthStr.data
      let day : Nat := if g.dayStr = "00" then 1 else digitsToNat g.dayStr.data
      if julianCondB cms year then
        match julianToGregorian year month day with
        | Except.ok (gy, gm, gd) => Except.ok ((gy : Int), gm, gd)
        | Except.error _ =>
            Except.error (PyErr.valueError ("Invalid date for Julian calendar"))
      else
        Except.ok (year, month, day)

/-- Month abbreviations of the source. -/
def monthsList : List String :=
  ["Jan", "Feb", "Mar", "Apr", "May", "Jun",
   "Jul", "Aug", "Sep", "Oct", "Nov", "Dec"]

/-- Formatting phase of `_time_to_text`: the per-precision `elif` chain of the
source.  `months[month - 1]` raises `IndexError` when the (unvalidated,
non-Julian) month exceeds 12; the `month != 0` guard is kept although the
adjust phase never yields month 0.  Negative-capable divisions use floor
division as Python `//` does. -/
def renderPrecision (p : Jv) (year : Int) (month day : Nat)
    (hh mi ss : String) : Except PyErr String := do
  let monthName : String ←
    if month = 0 then Except.ok ("")
    else match monthsList.get? (month - 1) with
      | some nm => Except.ok nm
      | none => Except.error (PyErr.indexError ("list index out of range"))
  let era : String := if 0 < year then "AD" else "BC"
  let unknown : Except PyErr String :=
    Except.error (PyErr.valueError ("Unknown precision value " ++ pyStr p))
  match p with
  | Jv.int n =>
      if n = 14 then
        Except.ok (toString year ++ " " ++ monthName ++ " " ++ toString day
          ++ " " ++ hh ++ ":" ++ mi ++ ":" ++ ss)
      else if n = 13 then
        Except.ok (toString year ++ " " ++ monthName ++ " " ++ toString day
          ++ " " ++ hh ++ ":" ++ mi)
      else if n = 12 then
        Except.ok (toString year ++ " " ++ monthName ++ " " ++ toString day
          ++ " " ++ hh ++ ":00")
      else if n = 11 then
        Except.ok (toString day ++ " " ++ monthName ++ " " ++ toString year)
      else if n = 10 then
        Except.ok (monthName ++ " " ++ toString year)
      else if n = 9 then
        Except.ok (toString year.natAbs ++ " " ++ era)
      else if n = 8 then
        Except.ok (toString ((Int.fdiv year 10) * 10).natAbs ++ "s " ++ era)
      else if n = 7 then
        Except.ok (toString (Int.fdiv ((year.natAbs : Int) - 1) 100 + 1)
          ++ "th century " ++ era)
      else if n = 6 then
        Except.ok (toString (Int.fdiv ((year.natAbs : Int) - 1) 1000 + 1)
          ++ "th millennium " ++ era)
      else if n = 5 then
        Except.ok (toString (year.natAbs / 10000) ++ " ten thousand years " ++ era)
      else if n = 4 then
        Except.ok (toString (year.natAbs / 100000) ++ " hundred thousand years " ++ era)
      else if n = 3 then
        Except.ok (toString (year.natAbs / 1000000) ++ " million years " ++ era)
      else if n = 2 then
        Except.ok (toString (year.natAbs / 10000000)
          ++ " tens of millions of years " ++ era)
      else if n = 1 then
        Except.ok (toString (year.natAbs / 100000000)
          ++ " hundred million years " ++ era)
      else if n = 0 then
        Except.ok (toString (year.natAbs / 1000000000) ++ " billion years " ++ era)
      else unknown
  | _ => unknown

/-- Embedding of `_time_to_text` (src/wikidata/utils.py:353).  The input is
the raw `time` snak payload.  Subscripting a non-dict payload raises
`TypeError` as in Python, as does running the regex over a non-string time
or testing substring containment on a non-string calendar model.  The
`time_data is None` early return is unreachable through `_parse_snak_value`,
which filters `None` payloads first, and is not modelled. -/
def _time_to_text (td : Jv) : Except PyErr String := do
  match td with
  | Jv.dict dd => do
      let tv ← pyIndex dd ("time")
      let pJv ← pyIndex dd ("precision")
      let cm := (dlookup dd ("calendarmodel")).getD
        (Jv.str ("http://www.wikidata.org/entity/Q1985786"))
      let tvs ← match tv with
        | Jv.str s => Except.ok s
        | _ => Except.error (PyErr.typeError ("expected string or bytes-like object"))
      let cms ← match cm with
        | Jv.str s => Except.ok s
        | _ => Except.error (PyErr.typeError ("argument of type is not iterable"))
      match matchTimePattern tvs with
      | none => Except.error (PyErr.valueError ("Malformed time string"))
      | some g => do
          let (y, m, d) ← timeAdjust tvs cms
          renderPrecision pJv y m d g.hourStr g.minuteStr g.secondStr
  | _ => Except.error (PyErr.typeError ("object is not subscriptable"))

/-- Convenience constructor for a time payload dict. -/
def timePayload (tv : String) (p : Int) (cm : Option String) : Jv :=
  match cm with
  | some c => Jv.dict [("time", Jv.str tv), ("precision", Jv.int p),
      ("calendarmodel", Jv.str c)]
  | none => Jv.dict [("time", Jv.str tv), ("precision", Jv.int p)]

example : _time_to_text (timePayload ("+1979-00-00T00:00:00Z") 9 none)
    = Except.ok ("1979 AD") := by decide
example : _time_to_text (timePayload ("-0044-03-15T00:00:00Z") 11 none)
    = Except.ok ("15 Mar -44") := by decide
example : _time_to_text (timePayload ("+0100-03-01T00:00:00Z") 11 none)
    = Except.ok ("11 Mar 100") := by decide
example : _time_to_text (timePayload ("+0001-01-01T00:00:00Z") 11 none)
    = Except.ok ("1 Jan 1") := by decide

/-! ## Embedding of `get_entities_labels_and_descriptions` (src/wikidata/utils.py:139) -/

/-- Labels/descriptions of one entity in a `wbgetentities` response, keyed by
language code.  The source's guards for a missing `labels` key or a non-dict
label object collapse to an absent language entry. -/
structure EntityInfo where
  labels : List (String × String)
  descriptions : List (String × String)
  deriving Repr, DecidableEq

/-- Oracle for the label/description endpoint: maps the ids of one chunked
request to the `entities` object of the upstream response.  The source
deduplicates the ids on the wire (`"|".join(list(set(ids)))`); that formatting
is absorbed into the oracle. -/
def LabelApi : Type := List String → List (String × EntityInfo)

/-- A `WikidataEntity` as produced by the label resolver (claims are always
empty there). -/
structure Resolved where
  id : String
  label : String
  description : String
  deriving Repr, DecidableEq

/-- Split a list into the chunks of at most 50 elements that the source's
`while` loop requests (fuel-indexed structural recursion; the fuel
`l.length` always suffices since every round consumes at least one id). -/
def chunks50 (l : List String) : List (List String) :=
  go l.length l
where go : Nat → List String → List (List String)
  | _, [] => []
  | 0, rest => [rest]
  | fuel + 1, rest => rest.take 50 :: go fuel (rest.drop 50)

/-- Language fallback of the source: `en`, then `mul`. -/
def enMulLookup (xs : List (String × String)) : Option String :=
  match dlookup xs ("en") with
  | some v => some v
  | none => dlookup xs ("mul")

/-- Build the resolver's entity for one response entry: the label defaults to
the entity id and the description to the empty string. -/
def mkResolved (id : String) (info : EntityInfo) : Resolved :=
  { id := id
    label := (enMulLookup info.labels).getD id
    description := (enMulLookup info.descriptions).getD ("") }

/-- Fold one chunk's response entries into the accumulated result dict. -/
def processEntities (data : List (String × EntityInfo))
    (acc : List (String × Resolved)) : List (String × Resolved) :=
  match data with
  | [] => acc
  | (id, info) :: rest => processEntities rest (dictSet acc id (mkResolved id info))

/-- Chunk loop of the resolver: each chunk whose response carries no entities
raises `ValueError("No entity resolved")`. -/
def resolveChunks (api : LabelApi) :
    List (List String) → List (String × Resolved) →
    Except PyErr (List (String × Resolved))
  | [], acc => Except.ok acc
  | c :: rest, acc =>
      let data := api c
      if data.isEmpty then Except.error (PyErr.valueError ("No entity resolved"))
      else resolveChunks api rest (processEntities data acc)

/-- Embedding of `get_entities_labels_and_descriptions`
(src/wikidata/utils.py:139): empty input raises
`ValueError("No entity IDs provided")`; otherwise the ids are processed in
chunks of 50. -/
def get_entities_labels_and_descriptions (ids : List String) (api : LabelApi) :
    Except PyErr (List (String × Resolved)) :=
  if ids.isEmpty then Except.error (PyErr.valueError ("No entity IDs provided"))
  else resolveChunks api (chunks50 ids) []

/-- Rendering `WikidataEntity.__str__` for an entity with no claims, as the
resolver returns them:  `id`, then `: label` when the label is nonempty, then
` (description)` when the description is nonempty. -/
def resolvedStr (e : Resolved) : String :=
  e.id ++ (if e.label.length > 0 then ": " ++ e.label else "")
    ++ (if e.description.length > 0 then " (" ++ e.description ++ ")" else "")

/-! ## Embedding of `_quantity_to_text` (src/wikidata/utils.py:441) -/

/-- Attempt the regex `http://www\.wikidata\.org/entity/(Q\d+)` at the head of
the character list, returning the group `Q` plus a maximal digit run. -/
def matchUriAt (l : List Char) : Option String :=
  let pre := ("http://www.wikidata.org/entity/Q").data
  if listIsPre pre l then
    let ds := (l.drop pre.length).takeWhile Char.isDigit
    if ds.isEmpty then none else some (String.mk ('Q' :: ds))
  else none

/-- Model of `re.search` with the unit-URI pattern: leftmost match. -/
def findEntityUri : List Char → Option String
  | [] => none
  | c :: rest =>
      match matchUriAt (c :: rest) with
      | some qid => some qid
      | none => findEntityUri rest

/-- Embedding of `_quantity_to_text` (src/wikidata/utils.py:441).  Note that
the source removes every `+` from the amount (`str.replace`), and that the
unit suffix interpolates the whole resolved entity object
(`f"{unit_entity.label} ({unit_entity})"`), i.e. `WikidataEntity.__str__`,
not the bare id. -/
def _quantity_to_text (value : Jv) (api : LabelApi) : Except PyErr String := do
  let amountJv ← pySubscript value ("amount")
  let quantityString := pyReplace (pyStr amountJv) ("+") ("")
  let unitJv ← pySubscript value ("unit")
  let unitUrl ← match unitJv with
    | Jv.str s => Except.ok s
    | _ => Except.error (PyErr.typeError ("expected string or bytes-like object"))
  match findEntityUri unitUrl.data with
  | some unitId => do
      let res ← get_entities_labels_and_descriptions [unitId] api
      let unitEntity ← match dlookup res unitId with
        | some e => Except.ok e
        | none => Except.error (PyErr.keyError unitId)
      Except.ok (quantityString ++ " "
        ++ (unitEntity.label ++ " (" ++ resolvedStr unitEntity ++ ")"))
  | none => Except.ok quantityString

/-! ## Embedding of `_globalcoordinate_to_text` (src/wikidata/utils.py:469) -/

/-- Embedding of `_globalcoordinate_to_text` for integral coordinates.
Wikidata coordinates are floats; binary floating point is outside this
embedding, so only integer-valued latitude/longitude are represented, for
which minutes and seconds are exactly zero and the source renders the
seconds as `0` after its rstrip chain.  No claim depends on this branch. -/
def _globalcoordinate_to_text (coor : Jv) : Except PyErr String := do
  let latJv ← pySubscript coor ("latitude")
  let lat ← match latJv with
    | Jv.int n => Except.ok n
    | _ => Except.error (PyErr.typeError ("bad operand type for abs"))
  let lonJv ← pySubscript coor ("longitude")
  let lon ← match lonJv with
    | Jv.int n => Except.ok n
    | _ => Except.error (PyErr.typeError ("bad operand type for abs"))
  let latStr := toString lat.natAbs ++ "°0'0\"" ++ (if 0 ≤ lat then "N" else "S")
  let lonStr := toString lon.natAbs ++ "°0'0\"" ++ (if 0 ≤ lon then "E" else "W")
  Except.ok (latStr ++ ", " ++ lonStr)

/-! ## Embedding of the claim parser (src/wikidata/utils.py:190-351)

The shared mutable dictionary `entities` of `WikidataEntity` objects is
modelled as an arena: `St.arena` holds the entity objects and `St.table` maps
an entity id to the arena index of its unique object.  Claims store arena
indices wherever the Python objects hold references. -/

/-- Claim rank (`WikidataClaimRank`). -/
inductive WikidataClaimRank where
  | normal
  | preferred
  | deprecated
  deriving Repr, DecidableEq

/-- Parsed qualifier (`WikidataQualifier`): the property and optional entity
value are arena indices. -/
structure QualRec where
  property : Nat
  valueEntity : Option Nat
  valueString : String
  deriving Repr, DecidableEq

/-- Parsed claim (`WikidataClaim`): subject, property and the optional entity
value are arena indices. -/
structure ClaimRec where
  subject : Nat
  property : Nat
  valueEntity : Option Nat
  valueString : String
  rank : WikidataClaimRank
  qualifiers : Option (List QualRec)
  deriving Repr, DecidableEq

/-- An entity object in the arena.  The id is `Option String` because a
`wikibase-item` snak value whose payload lacks an `id` key registers a
placeholder under Python `None`. -/
structure EntityObj where
  id : Option String
  label : String
  description : String
  claims : List ClaimRec
  deriving Repr, DecidableEq

/-- The shared resolution state of one request. -/
structure St where
  table : List (Option String × Nat)
  arena : List EntityObj
  deriving Repr, DecidableEq

/-- Fresh UNRESOLVED placeholder object. -/
def newUnresolved (id : Option String) : EntityObj :=
  { id := id, label := "UNRESOLVED", description := "UNRESOLVED", claims := [] }

/-- Embedding of `_get_or_create_unresolved_entity`
(src/wikidata/utils.py:240): return the registered object for the id, or
register a fresh UNRESOLVED placeholder. -/
def _get_or_create_unresolved_entity (entityId : Option String) (st : St) :
    Nat × St :=
  match dlookup st.table entityId with
  | some i => (i, st)
  | none =>
      (st.arena.length,
        { table := st.table ++ [(entityId, st.arena.length)]
          arena := st.arena ++ [newUnresolved entityId] })

/-- One raw snak: the datatype tag and the payload
(`...get("datavalue", {}).get("value")`, collapsed to one optional value). -/
structure RawSnak where
  datatype : Option String
  value : Option Jv

/-- One raw statement record: rank, main snak, qualifier groups. -/
structure RawStatement where
  rank : Option String
  mainsnak : RawSnak
  qualifiers : List (String × List RawSnak)

/-- Raw claim groups of one entity (`raw_entity_item_data.get("claims", {})`). -/
structure RawEntity where
  claims : List (String × List RawStatement)

/-- Embedding of `_parse_snak_value` (src/wikidata/utils.py:190).  The result
is either an arena index (entity reference) or the literal Python value the
source returns.  Faithfully to the source, the `quantity` and `time` branches
catch only `ValueError` and their fallback reads `value["time"]`; a non-string
`id` field in an item payload, which does not occur in wbgetentities
responses, is modelled as a `TypeError`. -/
def _parse_snak_value (datatype : Option String) (value : Option Jv)
    (api : LabelApi) (st : St) : Except PyErr ((Nat ⊕ Jv) × St) :=
  match value with
  | none => Except.ok (Sum.inr (Jv.str ("<empty string>")), st)
  | some v =>
    if datatype = some ("wikibase-property") ∨ datatype = some ("wikibase-item") then do
      let idField ← pyGet v ("id")
      let valueId : Option String ← match idField with
        | some (Jv.str s) => Except.ok (some s)
        | none => Except.ok none
        | some _ => Except.error (PyErr.typeError ("unhashable id field"))
      let (r, st') := _get_or_create_unresolved_entity valueId st
      Except.ok (Sum.inl r, st')
    else if datatype = some ("string") then
      Except.ok (Sum.inr (Jv.str (pyStr v)), st)
    else if datatype = some ("monolingualtext") then do
      let t ← pyGet v ("text")
      let l ← pyGet v ("language")
      Except.ok (Sum.inr (Jv.str (pyStr (t.getD (Jv.str ("<empty string>")))
        ++ " (language: " ++ pyStr (l.getD (Jv.str (""))) ++ ")")), st)
    else if datatype = some ("quantity") then
      match _quantity_to_text v api with
      | Except.ok s => Except.ok (Sum.inr (Jv.str s), st)
      | Except.error (PyErr.valueError _) => do
          let t ← pySubscript v ("time")
          Except.ok (Sum.inr t, st)
      | Except.error e => Except.error e
    else if datatype = some ("time") then
      match _time_to_text v with
      | Except.ok s => Except.ok (Sum.inr (Jv.str s), st)
      | Except.error (PyErr.valueError _) => do
          let t ← pySubscript v ("time")
          Except.ok (Sum.inr t, st)
      | Except.error e => Except.error e
    else if datatype = some ("wikibase-sense") ∨ datatype = some ("wikibase-lexeme")
        ∨ datatype = some ("wikibase-form") ∨ datatype = some ("entity-schema") then do
      let i ← pyGet v ("id")
      Except.ok (Sum.inr (i.getD (Jv.str ("<empty string>"))), st)
    else if datatype = some ("globe-coordinate") then
      match _globalcoordinate_to_text v with
      | Except.ok s => Except.ok (Sum.inr (Jv.str s), st)
      | Except.error (PyErr.valueError _) =>
          Except.ok (Sum.inr (Jv.str (pyStr v)), st)
      | Except.error e => Except.error e
    else
      Except.ok (Sum.inr (Jv.str (pyStr v)), st)

/-- Inner loop of `_parse_qualifiers` over one qualifier statement group. -/
def parseQualGroup (propId : String) (api : LabelApi) :
    List RawSnak → St → Except PyErr (List QualRec × St)
  | [], st => Except.ok ([], st)
  | snak :: rest, st => do
      let (propRef, st1) := _get_or_create_unresolved_entity (some propId) st
      let (res, st2) ← _parse_snak_value snak.datatype snak.value api st1
      let q : QualRec := match res with
        | Sum.inl r => { property := propRef, valueEntity := some r, valueString := "" }
        | Sum.inr jv => { property := propRef, valueEntity := none, valueString := pyStr jv }
      let (qs, st3) ← parseQualGroup propId api rest st2
      Except.ok (q :: qs, st3)

/-- Embedding of `_parse_qualifiers` (src/wikidata/utils.py:255). -/
def _parse_qualifiers (api : LabelApi) :
    List (String × List RawSnak) → St → Except PyErr (List QualRec × St)
  | [], st => Except.ok ([], st)
  | (propId, group) :: rest, st => do
      let (qs1, st1) ← parseQualGroup propId api group st
      let (qs2, st2) ← _parse_qualifiers api rest st1
      Except.ok (qs1 ++ qs2, st2)

/-- Embedding of `_parse_claim` (src/wikidata/utils.py:290). -/
def _parse_claim (sd : RawStatement) (subj prop : Nat) (api : LabelApi)
    (st : St) : Except PyErr (ClaimRec × St) := do
  let rank : WikidataClaimRank := match sd.rank with
    | some r =>
        if r = "deprecated" then WikidataClaimRank.deprecated
        else if r = "preferred" then WikidataClaimRank.preferred
        else WikidataClaimRank.normal
    | none => WikidataClaimRank.normal
  let (res, st1) ← _parse_snak_value sd.mainsnak.datatype sd.mainsnak.value api st
  let (ve, vs) : Option Nat × String := match res with
    | Sum.inl r => (some r, "")
    | Sum.inr jv => (none, pyStr jv)
  if sd.qualifiers.isEmpty then
    let c : ClaimRec :=
      { subject := subj
        property := prop
        valueEntity := ve
        valueString := vs
        rank := rank
        qualifiers := none }
    Except.ok (c, st1)
  else do
    let (qs, st2) ← _parse_qualifiers api sd.qualifiers st1
    let c : ClaimRec :=
      { subject := subj
        property := prop
        valueEntity := ve
        valueString := vs
        rank := rank
        qualifiers := some qs }
    Except.ok (c, st2)

/-- Append a parsed claim to the subject entity's claim list
(`current_subject_entity_with_claims.claims.append(claim)`). -/
def addClaim (st : St) (subj : Nat) (c : ClaimRec) : St :=
  match st.arena[subj]? with
  | some e => { st with arena := st.arena.set subj { e with claims := e.claims ++ [c] } }
  | none => st

/-- Statement loop of `_parse_entity` for one property group. -/
def parseStatementGroup (subj prop : Nat) (api : LabelApi) :
    List RawStatement → St → Except PyErr St
  | [], st => Except.ok st
  | sd :: rest, st => do
      let (c, st1) ← _parse_claim sd subj prop api st
      parseStatementGroup subj prop api rest (addClaim st1 subj c)

/-- Embedding of `_parse_entity` (src/wikidata/utils.py:329). -/
def _parse_entity (subj : Nat) (api : LabelApi) :
    List (String × List RawStatement) → St → Except PyErr St
  | [], st => Except.ok st
  | (propId, group) :: rest, st => do
      let (prop, st1) := _get_or_create_unresolved_entity (some propId) st
      let st2 ← parseStatementGroup subj prop api group st1
      _parse_entity subj api rest st2

/-! ## Embedding of `get_entities_with_claims` (src/wikidata/utils.py:505) -/

/-- Initialization loop of `get_entities_with_claims`: one fresh UNRESOLVED
placeholder per requested id, registered both in the result dict and in the
shared table (a duplicated request id overwrites both references, exactly as
the Python loop rebinds both dict slots). -/
def initPlaceholders : List String → List (String × Nat) → St →
    List (String × Nat) × St
  | [], result, st => (result, st)
  | id :: rest, result, st =>
      let idx := st.arena.length
      let st' : St :=
        { table := dictSet st.table (some id) idx
          arena := st.arena ++ [newUnresolved (some id)] }
      initPlaceholders rest (dictSet result id idx) st'

/-- Per-entity parse loop of `get_entities_with_claims`. -/
def parseAllEntities (result : List (String × Nat))
    (raw : List (String × RawEntity)) (api : LabelApi) :
    List String → St → Except PyErr St
  | [], st => Except.ok st
  | id :: rest, st => do
      -- `result_entities_with_claims[entity_id]`: present for every requested
      -- id by construction of the initialization loop, so the default is
      -- unreachable.
      let subj := (dlookup result id).getD 0
      let rawE := (dlookup raw id).getD { claims := [] }
      let st1 ← _parse_entity subj api rawE.claims st
      parseAllEntities result raw api rest st1

/-- Collect `list(entities.keys())`.  A Python `None` key (registered by an
item snak without an `id` field) would make the id join on the wire raise
`TypeError`; the model raises it when the key list is formed, before any
chunk request instead of at the offending chunk. -/
def optKeys : List (Option String × Nat) → Except PyErr (List String)
  | [] => Except.ok []
  | (some k, _) :: rest => do
      let ks ← optKeys rest
      Except.ok (k :: ks)
  | (none, _) :: _ =>
      Except.error (PyErr.typeError ("sequence item: expected str instance"))

/-- Back-fill loop of `get_entities_with_claims` (lines 551-554): write each
resolved label/description into the arena object registered for that id;
an id resolved by the upstream but never registered raises `KeyError`. -/
def backfill : List (String × Resolved) → St → Except PyErr St
  | [], st => Except.ok st
  | (k, r) :: rest, st =>
      match dlookup st.table (some k) with
      | none => Except.error (PyErr.keyError k)
      | some i =>
          match st.arena[i]? with
          | some e =>
              let e' := { e with label := r.label, description := r.description }
              backfill rest { st with arena := st.arena.set i e' }
          | none => backfill rest st

/-- Embedding of `get_entities_with_claims` (src/wikidata/utils.py:505).
Inputs are the requested ids, the `entities` object of the claims response,
and the label-endpoint oracle.  The result is the result dict (requested id
to arena index) together with the final shared state. -/
def get_entities_with_claims (ids : List String)
    (raw : List (String × RawEntity)) (api : LabelApi) :
    Except PyErr (List (String × Nat) × St) :=
  if ids.isEmpty then Except.ok ([], { table := [], arena := [] })
  else do
    let (result, st0) := initPlaceholders ids [] { table := [], arena := [] }
    let st1 ← parseAllEntities result raw api ids st0
    if st1.table.isEmpty then Except.ok (result, st1)
    else do
      let keys ← optKeys st1.table
      let resolved ← get_entities_labels_and_descriptions keys api
      let st2 ← backfill resolved st1
      Except.ok (result, st2)

/-! ## Claim C2 -/

/-- Raw claims input for C2: one entity whose single statement carries a
quantity snak whose payload lacks the `unit` key. -/
def c2Raw : List (String × RawEntity) :=
  [("Q1", { claims := [("P2048",
      [{ rank := some ("normal")
         mainsnak := { datatype := some ("quantity")
                       value := some (Jv.dict [("amount", Jv.str ("+5"))]) }
         qualifiers := [] }])] })]

/-- C2: the claim states that a malformed quantity or time payload is caught
by the decoder and the raw sub-field is returned, so one malformed value never
aborts the entity parse.  For quantity this fails twice over: a payload
without a `unit` key raises `KeyError("unit")`, which the `except ValueError`
clause does not catch, and even when a `ValueError` is caught the fallback
reads `value["time"]`, which a quantity payload does not have, raising
`KeyError("time")`; either way `get_entities_with_claims` aborts.  (For the
time datatype the fallback does return the raw `time` field, as the last
conjunct shows.) -/
theorem c2_quantity_fallback_aborts_parse :
    (_parse_snak_value (some ("quantity"))
        (some (Jv.dict [("amount", Jv.str ("+5"))]))
        (fun _ => []) { table := [], arena := [] }
      = Except.error (PyErr.keyError ("unit")))
  ∧ (_parse_snak_value (some ("quantity"))
        (some (Jv.dict [("amount", Jv.str ("+5")),
          ("unit", Jv.str ("http://www.wikidata.org/entity/Q11573"))]))
        (fun _ => []) { table := [], arena := [] }
      = Except.error (PyErr.keyError ("time")))
  ∧ (get_entities_with_claims ["Q1"] c2Raw (fun _ => [])
      = Except.error (PyErr.keyError ("unit")))
  ∧ (_parse_snak_value (some ("time"))
        (some (Jv.dict [("time", Jv.str ("bogus")), ("precision", Jv.int 11)]))
        (fun _ => []) { table := [], arena := [] }
      = Except.ok (Sum.inr (Jv.str ("bogus")), { table := [], arena := [] })) :=
  ⟨rfl, rfl, rfl, rfl⟩

/-! ## Claim C3 -/

/-- Upstream label response resolving Q11573 to label `metre` with no
description. -/
def c3Api : LabelApi := fun _ =>
  [("Q11573", { labels := [("en", "metre")], descriptions := [] })]

/-- C3: the claim states the quantity formatter returns exactly
`5 metre (Q11573)`.  The source builds the unit suffix as
`f"{unit_entity.label} ({unit_entity})"`, interpolating the whole
`WikidataEntity` object (whose `__str__` is `Q11573: metre`) instead of the
bare id, so the actual output is `5 metre (Q11573: metre)`.  The last two
conjuncts show that `str.replace("+", "")` also removes a non-leading `+`
from the amount, not only a leading one. -/
theorem c3_quantity_unit_suffix_mismatch :
    (_quantity_to_text (Jv.dict [("amount", Jv.str ("+5")),
        ("unit", Jv.str ("http://www.wikidata.org/entity/Q11573"))]) c3Api
      = Except.ok ("5 metre (Q11573: metre)"))
  ∧ ("5 metre (Q11573: metre)" ≠ "5 metre (Q11573)")
  ∧ (_quantity_to_text (Jv.dict [("amount", Jv.str ("+1e+10")),
        ("unit", Jv.str ("1"))]) c3Api = Except.ok ("1e10"))
  ∧ ("1e10" ≠ "1e+10") := by
  refine ⟨rfl, by decide, rfl, by decide⟩

/-! ## Claim C4 -/

/-- C4 counterexample: the claim states that a BC date at precision 11, such
as `-0044-03-15T00:00:00Z`, is rendered with the year magnitude only and an
era suffix `BC`.  The source's precision-11 format is
`f"{day} {month_str} {year}"` with the signed year and no era suffix: the
actual output is `15 Mar -44`, which contains no `BC` at all. -/
theorem c4_precision11_bc_counterexample :
    (_time_to_text (timePayload ("-0044-03-15T00:00:00Z") 11 none)
      = Except.ok ("15 Mar -44"))
  ∧ strEndsWith ("15 Mar -44") ("BC") = false
  ∧ strContains ("15 Mar -44") ("BC") = false := by
  refine ⟨rfl, by decide, by decide⟩

/-- C4 as amended: at precision 9 the formatter renders the absolute value of
the (possibly Julian-adjusted) year followed by ` AD` for positive years and
` BC` for non-positive years, so `+1979-00-00T00:00:00Z` at precision 9 gives
`1979 AD`; at precision 11 it renders `day month signed-year` with no era
suffix, so `-0044-03-15T00:00:00Z` gives `15 Mar -44`. -/
theorem c4_precision9_era_rendering (tv cm : String) (y : Int) (m d : Nat)
    (hAdj : timeAdjust tv cm = Except.ok (y, m, d))
    (hm1 : 1 ≤ m) (hm2 : m ≤ 12) :
    (_time_to_text (Jv.dict [("time", Jv.str tv), ("precision", Jv.int 9),
        ("calendarmodel", Jv.str cm)])
      = Except.ok (toString y.natAbs ++ " " ++ (if 0 < y then "AD" else "BC")))
  ∧ (_time_to_text (timePayload ("+1979-00-00T00:00:00Z") 9 none)
      = Except.ok ("1979 AD"))
  ∧ (_time_to_text (timePayload ("-0044-03-15T00:00:00Z") 11 none)
      = Except.ok ("15 Mar -44")) := by
  refine ⟨?_, rfl, rfl⟩
  have hparse : ∃ g, matchTimePattern tv = some g := by
    rcases hg : matchTimePattern tv with _ | g
    · rw [timeAdjust, hg] at hAdj
      exact absurd hAdj (by simp)
    · exact ⟨g, rfl⟩
  rcases hparse with ⟨g, hg⟩
  have hnm : ∃ nm, monthsList[m - 1]? = some nm := by
    interval_cases m <;> exact ⟨_, rfl⟩
  obtain ⟨nm, hnm⟩ := hnm
  have hrp : ∀ hh mi ss, renderPrecision (Jv.int 9) y m d hh mi ss
      = Except.ok (toString y.natAbs ++ " " ++ (if 0 < y then "AD" else "BC")) := by
    intro hh mi ss
    have hm0 : ¬ m = 0 := by omega
    simp [renderPrecision, hnm, hm0]
  simp [_time_to_text, pyIndex, dlookup, hg, hAdj, hrp, Except.bind]

/-- Witness for `c4_precision9_era_rendering` at a concrete Gregorian input. -/
theorem c4_precision9_era_rendering_witness :
    (timeAdjust ("+2020-05-06T00:00:00Z") ("gregorian") = Except.ok (2020, 5, 6))
  ∧ (_time_to_text (Jv.dict [("time", Jv.str ("+2020-05-06T00:00:00Z")),
      ("precision", Jv.int 9), ("calendarmodel", Jv.str ("gregorian"))])
      = Except.ok ("2020 AD")) := by
  refine ⟨by decide, ?_⟩
  have h := (c4_precision9_era_rendering ("+2020-05-06T00:00:00Z") ("gregorian")
    2020 5 6 (by decide) (by decide) (by decide)).1
  exact h.trans (by decide)

/-! ## Claim C5 -/

/-- C5 counterexample: the claim states that Julian-to-Gregorian conversion is
applied exactly when the calendar model is Julian and the absolute year has at
most 4 digits.  For Julian year 1 both conditions hold, yet the source's extra
guard `year > 1` skips the conversion: the output shows the literal day 1,
while the conversion (ordinal + cutover offset) would have produced day 11. -/
theorem c5_julian_year_one_counterexample :
    (strContains ("http://www.wikidata.org/entity/Q1985786") ("Q1985786") = true)
  ∧ ((toString (1 : Int).natAbs).length ≤ 4)
  ∧ (_time_to_text (timePayload ("+0001-01-01T00:00:00Z") 11 none)
      = Except.ok ("1 Jan 1"))
  ∧ (julianToGregorian 1 1 1 = Except.ok (1, 1, 11))
  ∧ ("1 Jan 1" ≠ "11 Jan 1") := by
  exact ⟨by decide, by decide, rfl, by decide, by decide⟩

/-- C5 as amended: the conversion is applied exactly when the calendar model
contains `Q1985786`, the year is greater than 1, and the absolute year has at
most 4 digits; otherwise (including Julian years at most 1) the adjust phase
only maps month/day `00` to `01`.  The two concrete conjuncts show a Julian
4-digit year being shifted (year 100: literal day 1 rendered as day 11) and a
Julian 5-digit year left unconverted. -/
theorem c5_julian_condition_boundary (tv cm : String) (g : TimeGroups)
    (year : Int) (month day : Nat)
    (hp : matchTimePattern tv = some g)
    (hy : year = (digitsToNat g.yearStr.data : Int) * (if g.sign then 1 else -1))
    (hm : month = (if g.monthStr = "00" then 1 else digitsToNat g.monthStr.data))
    (hd : day = (if g.dayStr = "00" then 1 else digitsToNat g.dayStr.data)) :
    ((strContains cm ("Q1985786") && decide (1 < year)
        && decide ((toString year.natAbs).length ≤ 4)) = true →
      ∀ gy gm gd, julianToGregorian year month day = Except.ok (gy, gm, gd) →
        timeAdjust tv cm = Except.ok ((gy : Int), gm, gd))
  ∧ ((strContains cm ("Q1985786") && decide (1 < year)
        && decide ((toString year.natAbs).length ≤ 4)) = false →
      timeAdjust tv cm = Except.ok (year, month, day))
  ∧ (_time_to_text (timePayload ("+0100-03-01T00:00:00Z") 11 none)
      = Except.ok ("11 Mar 100"))
  ∧ (_time_to_text (timePayload ("+10000-03-01T00:00:00Z") 11 none)
      = Except.ok ("1 Mar 10000")) := by
  subst hy hm hd
  refine ⟨?_, ?_, rfl, rfl⟩
  · intro hc gy gm gd hj
    have hc' : julianCondB cm ((digitsToNat g.yearStr.data : Int)
      * (if g.sign then 1 else -1)) = true := hc
    simp only [timeAdjust, hp]
    rw [hc', if_pos rfl, hj]
  · intro hc
    have hc' : julianCondB cm ((digitsToNat g.yearStr.data : Int)
      * (if g.sign then 1 else -1)) = false := hc
    simp only [timeAdjust, hp]
    rw [hc', if_neg (by simp)]

/-- Witness for `c5_julian_condition_boundary` at a concrete Julian input:
1500-02-20 Julian is shifted by the 10-day cutover offset to March 2. -/
theorem c5_julian_condition_boundary_witness :
    timeAdjust ("+1500-02-20T00:00:00Z") ("http://www.wikidata.org/entity/Q1985786")
      = Except.ok (1500, 3, 2) := by
  have h := c5_julian_condition_boundary ("+1500-02-20T00:00:00Z")
    ("http://www.wikidata.org/entity/Q1985786")
    { sign := true, yearStr := "1500", monthStr := "02", dayStr := "20",
      hourStr := "00", minuteStr := "00", secondStr := "00" }
    1500 2 20 (by decide) (by decide) (by decide) (by decide)
  exact h.1 (by decide) 1500 3 2 (by decide)

/-! ## Shared-state invariants of the claim parser

Helper lemmas about the dict model, then the identity-sharing invariant:
every table binding points at an arena object carrying that id (`tableWF`),
and every entity reference stored in a parsed claim is the table's binding
for some id (`goodRef`). -/

theorem dlookup_mem {α β : Type} [DecidableEq α] {l : List (α × β)} {k : α}
    {v : β} (h : dlookup l k = some v) : (k, v) ∈ l := by
  induction l with
  | nil => simp [dlookup] at h
  | cons p rest ih =>
      obtain ⟨k', v'⟩ := p
      by_cases hk : k' = k
      · subst hk
        rw [dlookup, if_pos rfl] at h
        cases h
        exact List.mem_cons_self _ _
      · rw [dlookup, if_neg hk] at h
        exact List.mem_cons_of_mem _ (ih h)

theorem dlookup_append_left {α β : Type} [DecidableEq α] {l l₂ : List (α × β)}
    {k : α} {v : β} (h : dlookup l k = some v) :
    dlookup (l ++ l₂) k = some v := by
  induction l with
  | nil => simp [dlookup] at h
  | cons p rest ih =>
      obtain ⟨k', v'⟩ := p
      by_cases hk : k' = k
      · subst hk
        rw [dlookup, if_pos rfl] at h
        rw [List.cons_append, dlookup, if_pos rfl]
        exact h
      · rw [dlookup, if_neg hk] at h
        rw [List.cons_append, dlookup, if_neg hk]
        exact ih h

theorem dlookup_append_new {α β : Type} [DecidableEq α] {l : List (α × β)}
    {k : α} (v : β) (h : dlookup l k = none) :
    dlookup (l ++ [(k, v)]) k = some v := by
  induction l with
  | nil => simp [dlookup]
  | cons p rest ih =>
      obtain ⟨k', v'⟩ := p
      by_cases hk : k' = k
      · subst hk
        rw [dlookup, if_pos rfl] at h
        cases h
      · rw [dlookup, if_neg hk] at h
        rw [List.cons_append, dlookup, if_neg hk]
        exact ih h

theorem mem_dictSet {α β : Type} [DecidableEq α] {l : List (α × β)} {k : α}
    {v : β} {p : α × β} (h : p ∈ dictSet l k v) : p = (k, v) ∨ p ∈ l := by
  induction l with
  | nil => simpa [dictSet] using h
  | cons q rest ih =>
      obtain ⟨k', v'⟩ := q
      by_cases hk : k' = k
      · subst hk
        rw [dictSet, if_pos rfl] at h
        rcases List.mem_cons.1 h with h1 | h1
        · exact Or.inl h1
        · exact Or.inr (List.mem_cons_of_mem _ h1)
      · rw [dictSet, if_neg hk] at h
        rcases List.mem_cons.1 h with h1 | h1
        · exact Or.inr (by simp [h1])
        · rcases ih h1 with h2 | h2
          · exact Or.inl h2
          · exact Or.inr (List.mem_cons_of_mem _ h2)

theorem dictSet_lookup_self {α β : Type} [DecidableEq α] (l : List (α × β))
    (k : α) (v : β) : dlookup (dictSet l k v) k = some v := by
  induction l with
  | nil => simp [dictSet, dlookup]
  | cons q rest ih =>
      obtain ⟨k', v'⟩ := q
      by_cases hk : k' = k
      · subst hk
        rw [dictSet, if_pos rfl, dlookup, if_pos rfl]
      · rw [dictSet, if_neg hk, dlookup, if_neg hk]
        exact ih

theorem dictSet_lookup_ne {α β : Type} [DecidableEq α] (l : List (α × β))
    {k k' : α} (v : β) (h : k' ≠ k) :
    dlookup (dictSet l k v) k' = dlookup l k' := by
  induction l with
  | nil => simp [dictSet, dlookup, Ne.symm h]
  | cons q rest ih =>
      obtain ⟨k'', v'⟩ := q
      by_cases hk : k'' = k
      · subst hk
        rw [dictSet, if_pos rfl, dlookup, dlookup,
          if_neg (fun hh => h hh.symm), if_neg (fun hh => h hh.symm)]
      · rw [dictSet, if_neg hk, dlookup, dlookup]
        by_cases hk2 : k'' = k'
        · rw [if_pos hk2, if_pos hk2]
        · rw [if_neg hk2, if_neg hk2]
          exact ih

/-- Every table binding points inside the arena, at an object whose `id` field
is the binding's key. -/
def tableWF (st : St) : Prop :=
  ∀ p ∈ st.table, ∃ e, st.arena[p.2]? = some e ∧ e.id = p.1

/-- An entity reference is good when it is the table's current binding for
some id: such a reference is shared by every holder of that id. -/
def goodRef (st : St) (r : Nat) : Prop :=
  ∃ k, dlookup st.table k = some r

/-- All entity references stored in one parsed claim (subject, property,
entity value, qualifier properties and qualifier entity values). -/
def claimRefs (c : ClaimRec) : List Nat :=
  [c.subject, c.property] ++ c.valueEntity.toList
    ++ (c.qualifiers.getD []).flatMap
        (fun q => [q.property] ++ q.valueEntity.toList)

/-- All references reachable from any claim parsed into the arena. -/
def reachableRefs (st : St) : List Nat :=
  st.arena.flatMap (fun e => e.claims.flatMap claimRefs)

/-- The id stored at an arena slot. -/
def refId (st : St) (r : Nat) : Option (Option String) :=
  (st.arena[r]?).map (fun e => e.id)

/-- Parser invariant: the table is well-formed and every reference stored in
any parsed claim is a table binding. -/
def StInv (st : St) : Prop :=
  tableWF st ∧ ∀ e ∈ st.arena, ∀ c ∈ e.claims, ∀ r ∈ claimRefs c, goodRef st r

/-- State extension along the parse: existing table bindings survive, and
existing arena objects keep their id, label and description (claims may be
appended). -/
def StExt (st st' : St) : Prop :=
  (∀ k i, dlookup st.table k = some i → dlookup st'.table k = some i)
  ∧ (∀ (i : Nat) (e : EntityObj), st.arena[i]? = some e →
      ∃ e' : EntityObj, st'.arena[i]? = some e'
        ∧ e'.id = e.id ∧ e'.label = e.label ∧ e'.description = e.description)

theorem extRefl (st : St) : StExt st st :=
  ⟨fun _ _ h => h, fun _ e h => ⟨e, h, rfl, rfl, rfl⟩⟩

theorem extTrans {s1 s2 s3 : St} (h1 : StExt s1 s2) (h2 : StExt s2 s3) :
    StExt s1 s3 := by
  refine ⟨fun k i h => h2.1 k i (h1.1 k i h), fun i e h => ?_⟩
  obtain ⟨e', he', hid, hlab, hdesc⟩ := h1.2 i e h
  obtain ⟨e'', he'', hid', hlab', hdesc'⟩ := h2.2 i e' he'
  exact ⟨e'', he'', hid'.trans hid, hlab'.trans hlab, hdesc'.trans hdesc⟩

theorem goodRefMono {st st' : St} (h : StExt st st') {r : Nat}
    (hg : goodRef st r) : goodRef st' r := by
  obtain ⟨k, hk⟩ := hg
  exact ⟨k, h.1 k r hk⟩

theorem getElemSomeLt {α : Type} {l : List α} {i : Nat} {e : α}
    (h : l[i]? = some e) : i < l.length := by
  rw [List.getElem?_eq_some] at h
  exact h.1

/-- Behaviour of `_get_or_create_unresolved_entity`: the state only grows, the
returned reference is the table's binding for the requested id, and the parser
invariant is preserved. -/
theorem getOrCreate_spec {k : Option String} {st : St} {r : Nat} {st' : St}
    (h : _get_or_create_unresolved_entity k st = (r, st')) :
    StExt st st' ∧ dlookup st'.table k = some r ∧ (StInv st → StInv st') := by
  rw [_get_or_create_unresolved_entity] at h
  cases hl : dlookup st.table k with
  | some i =>
      rw [hl] at h
      cases h
      exact ⟨extRefl st, hl, id⟩
  | none =>
      rw [hl] at h
      cases h
      have hext : StExt st { table := st.table ++ [(k, st.arena.length)], arena := st.arena ++ [newUnresolved k] } := by
        constructor
        · intro k' i hk'
          exact dlookup_append_left hk'
        · intro i e he
          refine ⟨e, ?_, rfl, rfl, rfl⟩
          exact (List.getElem?_append_left (getElemSomeLt he)).trans he
      refine ⟨hext, dlookup_append_new _ hl, ?_⟩
      rintro ⟨hwf, hclaims⟩
      constructor
      · intro p hp
        rcases List.mem_append.1 hp with hp1 | hp1
        · obtain ⟨e, he, hid⟩ := hwf p hp1
          exact ⟨e, (List.getElem?_append_left (getElemSomeLt he)).trans he, hid⟩
        · rcases List.mem_singleton.1 hp1 with rfl
          exact ⟨newUnresolved k, List.getElem?_concat_length _ _, rfl⟩
      · intro e he c hc r' hr'
        rcases List.mem_append.1 he with he1 | he1
        · exact goodRefMono hext (hclaims e he1 c hc r' hr')
        · rcases List.mem_singleton.1 he1 with rfl
          simp [newUnresolved] at hc

/-- Behaviour of `addClaim`: the state extends, and the invariant is preserved
when the appended claim's references are good. -/
theorem addClaim_spec (st : St) (subj : Nat) (c : ClaimRec) :
    StExt st (addClaim st subj c)
    ∧ (StInv st → (∀ r ∈ claimRefs c, goodRef st r) → StInv (addClaim st subj c)) := by
  rw [addClaim]
  cases he : st.arena[subj]? with
  | none => exact ⟨extRefl st, fun hi _ => hi⟩
  | some e =>
      have hlt : subj < st.arena.length := getElemSomeLt he
      have harena : ∀ (i : Nat) (e₀ : EntityObj), st.arena[i]? = some e₀ →
          ∃ e' : EntityObj,
            (st.arena.set subj { e with claims := e.claims ++ [c] })[i]? = some e'
            ∧ e'.id = e₀.id ∧ e'.label = e₀.label ∧ e'.description = e₀.description := by
        intro i e₀ hi
        by_cases hij : subj = i
        · subst hij
          rw [he] at hi
          cases hi
          exact ⟨_, List.getElem?_set_self hlt, rfl, rfl, rfl⟩
        · exact ⟨e₀, (List.getElem?_set_ne hij).trans hi, rfl, rfl, rfl⟩
      have hext : StExt st { st with
          arena := st.arena.set subj { e with claims := e.claims ++ [c] } } := by
        exact ⟨fun _ _ hk => hk, harena⟩
      refine ⟨hext, ?_⟩
      rintro ⟨hwf, hclaims⟩ hgood
      constructor
      · intro p hp
        obtain ⟨e₀, he₀, hid⟩ := hwf p hp
        obtain ⟨e', he', hid', _, _⟩ := harena p.2 e₀ he₀
        exact ⟨e', he', hid'.trans hid⟩
      · intro e' he' c' hc' r' hr'
        have hgood' : ∀ r ∈ claimRefs c', goodRef st r → goodRef
            { st with arena := st.arena.set subj { e with claims := e.claims ++ [c] } } r :=
          fun r _ hg => goodRefMono hext hg
        rcases List.mem_or_eq_of_mem_set he' with he1 | he1
        · exact hgood' r' hr' (hclaims e' he1 c' hc' r' hr')
        · subst he1
          simp only [List.mem_append, List.mem_singleton] at hc'
          rcases hc' with hc1 | hc1
          · exact hgood' r' hr' (hclaims e (List.getElem?_mem he) c' hc1 r' hr')
          · subst hc1
            exact hgood' r' hr' (hgood r' hr')

/-- Common case of `parseSnak_spec`: the branch returned a literal and left
the state untouched. -/
theorem snakPureCase {st st' : St} {res : Nat ⊕ Jv} (jv : Jv)
    (h : (Except.ok ((Sum.inr jv : Nat ⊕ Jv), st) : Except PyErr ((Nat ⊕ Jv) × St))
      = Except.ok (res, st')) :
    StExt st st' ∧ (StInv st → StInv st')
    ∧ (∀ r, res = Sum.inl r → goodRef st' r) := by
  injection h with h2
  have hres : Sum.inr jv = res := congrArg Prod.fst h2
  have hst : st = st' := congrArg Prod.snd h2
  subst hst
  refine ⟨extRefl st, id, ?_⟩
  intro r hr
  rw [← hres] at hr
  cases hr

/-- Behaviour of `_parse_snak_value` on success: the state extends, the
invariant is preserved, and a returned entity reference is a table binding. -/
theorem parseSnak_spec {dt : Option String} {v : Option Jv} {api : LabelApi}
    {st : St} {res : Nat ⊕ Jv} {st' : St}
    (h : _parse_snak_value dt v api st = Except.ok (res, st')) :
    StExt st st' ∧ (StInv st → StInv st')
    ∧ (∀ r, res = Sum.inl r → goodRef st' r) := by
  rcases v with _ | v
  · exact snakPureCase _ h.symm.symm
  simp only [_parse_snak_value] at h
  split_ifs at h
  case pos =>
    -- wikibase-property / wikibase-item: the only state-changing branch
    rcases hpg : pyGet v ("id") with e | idField
    · rw [hpg] at h
      simp at h
    · rw [hpg] at h
      simp only [exceptBindOk] at h
      have hfin : ∀ (key : Option String),
          (match _get_or_create_unresolved_entity key st with
            | (r, st0) => (Except.ok (Sum.inl r, st0) : Except PyErr ((Nat ⊕ Jv) × St)))
            = Except.ok (res, st') →
          StExt st st' ∧ (StInv st → StInv st')
          ∧ (∀ r, res = Sum.inl r → goodRef st' r) := by
        intro key hk
        rcases hgc : _get_or_create_unresolved_entity key st with ⟨r0, st0⟩
        rw [hgc] at hk
        injection hk with h2
        have hres : Sum.inl r0 = res := congrArg Prod.fst h2
        have hst : st0 = st' := congrArg Prod.snd h2
        subst hst
        obtain ⟨hext, hbind, hinv⟩ := getOrCreate_spec hgc
        refine ⟨hext, hinv, ?_⟩
        intro r hr
        rw [← hres] at hr
        cases hr
        exact ⟨key, hbind⟩
      rcases idField with _ | jf
      · exact hfin none h
      · rcases jf with s | n | d | l
        · exact hfin (some s) h
        · simp at h
        · simp at h
        · simp at h
  case pos =>
    exact snakPureCase _ h
  case pos =>
    -- monolingualtext
    rcases hpt : pyGet v ("text") with e | t
    · rw [hpt] at h
      simp at h
    · rw [hpt] at h
      rcases hpl : pyGet v ("language") with e | l
      · rw [hpl] at h
        simp at h
      · rw [hpl] at h
        exact snakPureCase _ h
  case pos =>
    -- quantity
    rcases hq : _quantity_to_text v api with e | s
    · rw [hq] at h
      rcases e with m | k | m | m | m | n
      · rcases hps : pySubscript v ("time") with e2 | t
        · rw [hps] at h
          simp at h
        · rw [hps] at h
          exact snakPureCase t h
      · simp at h
      · simp at h
      · simp at h
      · simp at h
      · simp at h
    · rw [hq] at h
      exact snakPureCase _ h
  case pos =>
    -- time
    rcases hq : _time_to_text v with e | s
    · rw [hq] at h
      rcases e with m | k | m | m | m | n
      · rcases hps : pySubscript v ("time") with e2 | t
        · rw [hps] at h
          simp at h
        · rw [hps] at h
          exact snakPureCase t h
      · simp at h
      · simp at h
      · simp at h
      · simp at h
      · simp at h
    · rw [hq] at h
      exact snakPureCase _ h
  case pos =>
    -- wikibase-sense / lexeme / form / entity-schema
    rcases hpg : pyGet v ("id") with e | i
    · rw [hpg] at h
      simp at h
    · rw [hpg] at h
      exact snakPureCase _ h
  case pos =>
    -- globe-coordinate
    rcases hq : _globalcoordinate_to_text v with e | s
    · rw [hq] at h
      rcases e with m | k | m | m | m | n
      · exact snakPureCase _ h
      · simp at h
      · simp at h
      · simp at h
      · simp at h
      · simp at h
    · rw [hq] at h
      exact snakPureCase _ h
  case neg =>
    exact snakPureCase _ h

/-- Behaviour of `parseQualGroup`: state extension, invariant preservation,
and every reference stored in a produced qualifier is a table binding. -/
theorem parseQualGroup_spec {propId : String} {api : LabelApi} :
    ∀ {group : List RawSnak} {st : St} {qs : List QualRec} {st' : St},
    parseQualGroup propId api group st = Except.ok (qs, st') →
    StExt st st' ∧ (StInv st → StInv st')
    ∧ ∀ q ∈ qs, ∀ r ∈ ([q.property] ++ q.valueEntity.toList), goodRef st' r := by
  intro group
  induction group with
  | nil =>
      intro st qs st' h
      simp only [parseQualGroup] at h
      injection h with h2
      have hqs : [] = qs := congrArg Prod.fst h2
      have hst : st = st' := congrArg Prod.snd h2
      subst hst
      rw [← hqs]
      exact ⟨extRefl st, id, by simp⟩
  | cons snak rest ih =>
      intro st qs st' h
      simp only [parseQualGroup] at h
      rcases hgc : _get_or_create_unresolved_entity (some propId) st with ⟨propRef, st1⟩
      rw [hgc] at h
      obtain ⟨hext1, hbind1, hinv1⟩ := getOrCreate_spec hgc
      rcases hsn : _parse_snak_value snak.datatype snak.value api st1 with e | p
      · rw [hsn] at h
        simp at h
      · rw [hsn] at h
        obtain ⟨res0, st2⟩ := p
        obtain ⟨hext2, hinv2, hgood2⟩ := parseSnak_spec hsn
        simp only [exceptBindOk] at h
        rcases hrec : parseQualGroup propId api rest st2 with e | p2
        · rw [hrec] at h
          simp at h
        · rw [hrec] at h
          obtain ⟨qs1, st3⟩ := p2
          obtain ⟨hext3, hinv3, hgood3⟩ := ih hrec
          simp only [exceptBindOk] at h
          rcases res0 with r0 | jv
          · injection h with h2
            have hqs : ({ property := propRef, valueEntity := some r0, valueString := "" } : QualRec) :: qs1 = qs :=
              congrArg Prod.fst h2
            have hst : st3 = st' := congrArg Prod.snd h2
            subst hst
            refine ⟨extTrans (extTrans hext1 hext2) hext3,
              fun hi => hinv3 (hinv2 (hinv1 hi)), ?_⟩
            intro q hq r hr
            rw [← hqs] at hq
            rcases List.mem_cons.1 hq with rfl | hq1
            · simp at hr
              rcases hr with rfl | rfl
              · exact goodRefMono hext3 (goodRefMono hext2 ⟨some propId, hbind1⟩)
              · exact goodRefMono hext3 (hgood2 _ rfl)
            · exact hgood3 q hq1 r hr
          · injection h with h2
            have hqs : ({ property := propRef, valueEntity := none, valueString := pyStr jv } : QualRec) :: qs1 = qs :=
              congrArg Prod.fst h2
            have hst : st3 = st' := congrArg Prod.snd h2
            subst hst
            refine ⟨extTrans (extTrans hext1 hext2) hext3,
              fun hi => hinv3 (hinv2 (hinv1 hi)), ?_⟩
            intro q hq r hr
            rw [← hqs] at hq
            rcases List.mem_cons.1 hq with rfl | hq1
            · simp at hr
              subst hr
              exact goodRefMono hext3 (goodRefMono hext2 ⟨some propId, hbind1⟩)
            · exact hgood3 q hq1 r hr

/-- Behaviour of `_parse_qualifiers`: as `parseQualGroup_spec`, over all
qualifier groups. -/
theorem parseQualifiers_spec {api : LabelApi} :
    ∀ {qd : List (String × List RawSnak)} {st : St} {qs : List QualRec} {st' : St},
    _parse_qualifiers api qd st = Except.ok (qs, st') →
    StExt st st' ∧ (StInv st → StInv st')
    ∧ ∀ q ∈ qs, ∀ r ∈ ([q.property] ++ q.valueEntity.toList), goodRef st' r := by
  intro qd
  induction qd with
  | nil =>
      intro st qs st' h
      simp only [_parse_qualifiers] at h
      injection h with h2
      have hqs : ([] : List QualRec) = qs := congrArg Prod.fst h2
      have hst : st = st' := congrArg Prod.snd h2
      subst hst
      rw [← hqs]
      exact ⟨extRefl st, id, by simp⟩
  | cons grp rest ih =>
      intro st qs st' h
      obtain ⟨propId, group⟩ := grp
      simp only [_parse_qualifiers] at h
      rcases h1 : parseQualGroup propId api group st with e | p1
      · rw [h1] at h
        simp at h
      · rw [h1] at h
        obtain ⟨qs1, st1⟩ := p1
        obtain ⟨hext1, hinv1, hgood1⟩ := parseQualGroup_spec h1
        simp only [exceptBindOk] at h
        rcases h2 : _parse_qualifiers api rest st1 with e | p2
        · rw [h2] at h
          simp at h
        · rw [h2] at h
          obtain ⟨qs2, st2⟩ := p2
          obtain ⟨hext2, hinv2, hgood2⟩ := ih h2
          simp only [exceptBindOk] at h
          injection h with h3
          have hqs : qs1 ++ qs2 = qs := congrArg Prod.fst h3
          have hst : st2 = st' := congrArg Prod.snd h3
          subst hst
          refine ⟨extTrans hext1 hext2, fun hi => hinv2 (hinv1 hi), ?_⟩
          intro q hq r hr
          rw [← hqs] at hq
          rcases List.mem_append.1 hq with hq1 | hq1
          · exact goodRefMono hext2 (hgood1 q hq1 r hr)
          · exact hgood2 q hq1 r hr

/-- Behaviour of `_parse_claim`: given good subject and property references,
the produced claim's references are all table bindings. -/
theorem parseClaim_spec {sd : RawStatement} {subj prop : Nat} {api : LabelApi}
    {st : St} {c : ClaimRec} {st' : St}
    (h : _parse_claim sd subj prop api st = Except.ok (c, st'))
    (hs : goodRef st subj) (hp : goodRef st prop) :
    StExt st st' ∧ (StInv st → StInv st')
    ∧ ∀ r ∈ claimRefs c, goodRef st' r := by
  simp only [_parse_claim] at h
  rcases h1 : _parse_snak_value sd.mainsnak.datatype sd.mainsnak.value api st with e | p1
  · rw [h1] at h
    simp at h
  · rw [h1] at h
    obtain ⟨res0, st1⟩ := p1
    obtain ⟨hext1, hinv1, hgood1⟩ := parseSnak_spec h1
    simp only [exceptBindOk] at h
    rcases res0 with r0 | jv
    all_goals {
      by_cases hqe : sd.qualifiers.isEmpty
      · rw [if_pos hqe] at h
        cases h
        refine ⟨hext1, hinv1, ?_⟩
        intro r hr
        simp [claimRefs] at hr
        first
        | {rcases hr with rfl | rfl | rfl
           · exact goodRefMono hext1 hs
           · exact goodRefMono hext1 hp
           · exact hgood1 _ rfl}
        | {rcases hr with rfl | rfl
           · exact goodRefMono hext1 hs
           · exact goodRefMono hext1 hp}
      · rw [if_neg hqe] at h
        rcases h2 : _parse_qualifiers api sd.qualifiers st1 with e | p2
        · rw [h2] at h
          simp at h
        · rw [h2] at h
          obtain ⟨qs1, st2⟩ := p2
          obtain ⟨hext2, hinv2, hgood2⟩ := parseQualifiers_spec h2
          simp only [exceptBindOk] at h
          cases h
          refine ⟨extTrans hext1 hext2, fun hi => hinv2 (hinv1 hi), ?_⟩
          intro r hr
          simp [claimRefs] at hr
          first
          | {rcases hr with rfl | rfl | rfl | ⟨q, hq, hrq⟩
             · exact goodRefMono hext2 (goodRefMono hext1 hs)
             · exact goodRefMono hext2 (goodRefMono hext1 hp)
             · exact goodRefMono hext2 (hgood1 _ rfl)
             · refine hgood2 q hq _ ?_
               simp
               exact hrq}
          | {rcases hr with rfl | rfl | ⟨q, hq, hrq⟩
             · exact goodRefMono hext2 (goodRefMono hext1 hs)
             · exact goodRefMono hext2 (goodRefMono hext1 hp)
             · refine hgood2 q hq _ ?_
               simp
               exact hrq}
    }

/-- Behaviour of the statement loop of `_parse_entity`. -/
theorem parseStatementGroup_spec {subj prop : Nat} {api : LabelApi} :
    ∀ {group : List RawStatement} {st st' : St},
    parseStatementGroup subj prop api group st = Except.ok st' →
    goodRef st subj → goodRef st prop →
    StExt st st' ∧ (StInv st → StInv st') := by
  intro group
  induction group with
  | nil =>
      intro st st' h _ _
      simp only [parseStatementGroup] at h
      cases h
      exact ⟨extRefl st, id⟩
  | cons sd rest ih =>
      intro st st' h hs hp
      simp only [parseStatementGroup] at h
      rcases h1 : _parse_claim sd subj prop api st with e | p1
      · rw [h1] at h
        simp at h
      · rw [h1] at h
        obtain ⟨c, st1⟩ := p1
        obtain ⟨hext1, hinv1, hgood1⟩ := parseClaim_spec h1 hs hp
        simp only [exceptBindOk] at h
        obtain ⟨hext2, hinv2⟩ := addClaim_spec st1 subj c
        obtain ⟨hext3, hinv3⟩ := ih h (goodRefMono hext2 (goodRefMono hext1 hs))
          (goodRefMono hext2 (goodRefMono hext1 hp))
        exact ⟨extTrans (extTrans hext1 hext2) hext3,
          fun hi => hinv3 (hinv2 (hinv1 hi) hgood1)⟩

/-- Behaviour of `_parse_entity`: given a good subject reference, the state
extends and the invariant is preserved. -/
theorem parseEntity_spec {subj : Nat} {api : LabelApi} :
    ∀ {groups : List (String × List RawStatement)} {st st' : St},
    _parse_entity subj api groups st = Except.ok st' →
    goodRef st subj →
    StExt st st' ∧ (StInv st → StInv st') := by
  intro groups
  induction groups with
  | nil =>
      intro st st' h _
      simp only [_parse_entity] at h
      cases h
      exact ⟨extRefl st, id⟩
  | cons grp rest ih =>
      intro st st' h hs
      obtain ⟨propId, group⟩ := grp
      simp only [_parse_entity] at h
      rcases hgc : _get_or_create_unresolved_entity (some propId) st with ⟨prop, st1⟩
      rw [hgc] at h
      obtain ⟨hext1, hbind1, hinv1⟩ := getOrCreate_spec hgc
      rcases h2 : parseStatementGroup subj prop api group st1 with e | st2
      · rw [h2] at h
        simp at h
      · rw [h2] at h
        simp only [exceptBindOk] at h
        obtain ⟨hext2, hinv2⟩ :=
          parseStatementGroup_spec h2 (goodRefMono hext1 hs) ⟨some propId, hbind1⟩
        obtain ⟨hext3, hinv3⟩ := ih h (goodRefMono hext2 (goodRefMono hext1 hs))
        exact ⟨extTrans (extTrans hext1 hext2) hext3,
          fun hi => hinv3 (hinv2 (hinv1 hi))⟩

/-- Behaviour of the per-entity loop of `get_entities_with_claims`: requested
ids whose result binding is synchronized with the table keep the invariant. -/
theorem parseAllEntities_spec {result : List (String × Nat)}
    {raw : List (String × RawEntity)} {api : LabelApi} :
    ∀ {ids : List String} {st st' : St},
    parseAllEntities result raw api ids st = Except.ok st' →
    (∀ id ∈ ids, ∃ rr, dlookup result id = some rr
      ∧ dlookup st.table (some id) = some rr) →
    StExt st st' ∧ (StInv st → StInv st') := by
  intro ids
  induction ids with
  | nil =>
      intro st st' h _
      simp only [parseAllEntities] at h
      cases h
      exact ⟨extRefl st, id⟩
  | cons id rest ih =>
      intro st st' h hsync
      simp only [parseAllEntities] at h
      rcases h1 : _parse_entity ((dlookup result id).getD 0) api
          ((dlookup raw id).getD { claims := [] }).claims st with e | st1
      · rw [h1] at h
        simp at h
      · rw [h1] at h
        simp only [exceptBindOk] at h
        obtain ⟨rr, hres, htab⟩ := hsync id (List.mem_cons_self _ _)
        have hgood : goodRef st ((dlookup result id).getD 0) := by
          rw [hres]
          exact ⟨some id, htab⟩
        obtain ⟨hext1, hinv1⟩ := parseEntity_spec h1 hgood
        have hsync1 : ∀ id' ∈ rest, ∃ rr, dlookup result id' = some rr
            ∧ dlookup st1.table (some id') = some rr := by
          intro id' hid'
          obtain ⟨rr', hres', htab'⟩ := hsync id' (List.mem_cons_of_mem _ hid')
          exact ⟨rr', hres', hext1.1 _ _ htab'⟩
        obtain ⟨hext2, hinv2⟩ := ih h hsync1
        exact ⟨extTrans hext1 hext2, fun hi => hinv2 (hinv1 hi)⟩

/-- Invariant of the initialization loop: the table is well-formed, every
result binding is mirrored in the table, and every arena object is a fresh
UNRESOLVED placeholder without claims. -/
def InitOk (result : List (String × Nat)) (st : St) : Prop :=
  tableWF st
  ∧ (∀ id r, dlookup result id = some r → dlookup st.table (some id) = some r)
  ∧ (∀ e ∈ st.arena, e.label = "UNRESOLVED" ∧ e.description = "UNRESOLVED"
      ∧ e.claims = [])

/-- Behaviour of `initPlaceholders`. -/
theorem initPlaceholders_spec :
    ∀ {ids : List String} {result : List (String × Nat)} {st : St}
      {result' : List (String × Nat)} {st' : St},
    initPlaceholders ids result st = (result', st') →
    InitOk result st →
    InitOk result' st'
    ∧ (∀ id, (dlookup result id).isSome → (dlookup result' id).isSome)
    ∧ (∀ id ∈ ids, (dlookup result' id).isSome) := by
  intro ids
  induction ids with
  | nil =>
      intro result st result' st' h hok
      simp only [initPlaceholders] at h
      cases h
      exact ⟨hok, fun _ hs => hs, by simp⟩
  | cons id rest ih =>
      intro result st result' st' h hok
      obtain ⟨hwf, hsync, hfresh⟩ := hok
      simp only [initPlaceholders] at h
      have hok1 : InitOk (dictSet result id st.arena.length)
          { table := dictSet st.table (some id) st.arena.length,
            arena := st.arena ++ [newUnresolved (some id)] } := by
        refine ⟨?_, ?_, ?_⟩
        · intro p hp
          rcases mem_dictSet hp with rfl | hp1
          · exact ⟨newUnresolved (some id), List.getElem?_concat_length _ _, rfl⟩
          · obtain ⟨e, he, hid⟩ := hwf p hp1
            exact ⟨e, (List.getElem?_append_left (getElemSomeLt he)).trans he, hid⟩
        · intro id' r hr
          by_cases hid : id' = id
          · subst hid
            rw [dictSet_lookup_self] at hr
            cases hr
            exact dictSet_lookup_self _ _ _
          · rw [dictSet_lookup_ne _ _ hid] at hr
            rw [dictSet_lookup_ne _ _ (fun hh => hid (Option.some.inj hh))]
            exact hsync id' r hr
        · intro e he
          rcases List.mem_append.1 he with he1 | he1
          · exact hfresh e he1
          · rcases List.mem_singleton.1 he1 with rfl
            exact ⟨rfl, rfl, rfl⟩
      obtain ⟨hok', hmono, hmem⟩ := ih h hok1
      refine ⟨hok', ?_, ?_⟩
      · intro id' hs
        apply hmono
        by_cases hid : id' = id
        · subst hid
          rw [dictSet_lookup_self]
          rfl
        · rw [dictSet_lookup_ne _ _ hid]
          exact hs
      · intro id' hid'
        rcases List.mem_cons.1 hid' with rfl | hid1
        · apply hmono
          rw [dictSet_lookup_self]
          rfl
        · exact hmem id' hid1

/-- The back-fill loop never changes the table and only rewrites labels and
descriptions: ids and claim lists of every arena slot are untouched. -/
theorem backfill_spec : ∀ {resolved : List (String × Resolved)} {st st' : St},
    backfill resolved st = Except.ok st' →
    st'.table = st.table
    ∧ ∀ (i : Nat), (st'.arena[i]?).map (fun e => (e.id, e.claims))
        = (st.arena[i]?).map (fun e => (e.id, e.claims)) := by
  intro resolved
  induction resolved with
  | nil =>
      intro st st' h
      simp only [backfill] at h
      cases h
      exact ⟨rfl, fun _ => rfl⟩
  | cons p rest ih =>
      intro st st' h
      obtain ⟨k, r⟩ := p
      simp only [backfill] at h
      split at h
      · simp at h
      next i hl =>
        split at h
        next e he =>
          obtain ⟨ht, ha⟩ := ih h
          refine ⟨ht, fun j => ?_⟩
          rw [ha j]
          by_cases hij : i = j
          · subst hij
            rw [List.getElem?_set_self (getElemSomeLt he), he]
            rfl
          · rw [List.getElem?_set_ne hij]
        next he =>
          obtain ⟨ht, ha⟩ := ih h
          exact ⟨ht, ha⟩

/-- If no entry of the resolved list is bound (via the table) to slot `r`,
the back-fill leaves slot `r` entirely unchanged. -/
theorem backfill_untouched : ∀ {resolved : List (String × Resolved)}
    {st st' : St} {r : Nat},
    backfill resolved st = Except.ok st' →
    (∀ p ∈ resolved, dlookup st.table (some p.1) ≠ some r) →
    st'.arena[r]? = st.arena[r]? := by
  intro resolved
  induction resolved with
  | nil =>
      intro st st' r h _
      simp only [backfill] at h
      cases h
      rfl
  | cons p rest ih =>
      intro st st' r h hne
      obtain ⟨k, rr⟩ := p
      simp only [backfill] at h
      split at h
      · simp at h
      next i hl =>
        have hir : i ≠ r := by
          intro hh
          exact hne (k, rr) (List.mem_cons_self _ _) (hh ▸ hl)
        split at h
        next e he =>
          have := ih h (fun p hp => hne p (List.mem_cons_of_mem _ hp))
          rw [this, List.getElem?_set_ne hir]
        next he =>
          exact ih h (fun p hp => hne p (List.mem_cons_of_mem _ hp))

/-- The back-fill preserves the parser invariant. -/
theorem backfill_inv {resolved : List (String × Resolved)} {st st' : St}
    (h : backfill resolved st = Except.ok st') (hi : StInv st) : StInv st' := by
  obtain ⟨ht, ha⟩ := backfill_spec h
  obtain ⟨hwf, hclaims⟩ := hi
  constructor
  · intro p hp
    rw [ht] at hp
    obtain ⟨e, he, hid⟩ := hwf p hp
    have := ha p.2
    rw [he] at this
    rcases he' : st'.arena[p.2]? with _ | e'
    · rw [he'] at this
      simp at this
    · rw [he'] at this
      simp only [Option.map_some'] at this
      refine ⟨e', rfl, ?_⟩
      have := congrArg Prod.fst (Option.some.inj this)
      simpa [hid] using this
  · intro e' he' c hc r hr
    obtain ⟨i, hi'⟩ := List.getElem?_of_mem he'
    have := ha i
    rw [hi'] at this
    rcases he : st.arena[i]? with _ | e
    · rw [he] at this
      simp at this
    · rw [he] at this
      simp only [Option.map_some'] at this
      have hcl : e'.claims = e.claims := congrArg Prod.snd (Option.some.inj this)
      have hg : goodRef st r :=
        hclaims e (List.getElem?_mem he) c (hcl ▸ hc) r hr
      obtain ⟨k, hk⟩ := hg
      exact ⟨k, ht ▸ hk⟩

/-- A key of the accumulated resolver dict either came from some chunk's
response or was already present. -/
theorem processEntities_lookup : ∀ {data : List (String × EntityInfo)}
    {acc : List (String × Resolved)} {k : String} {v : Resolved},
    dlookup (processEntities data acc) k = some v →
    (dlookup data k).isSome ∨ dlookup acc k = some v := by
  intro data
  induction data with
  | nil =>
      intro acc k v h
      exact Or.inr h
  | cons p rest ih =>
      intro acc k v h
      obtain ⟨id, info⟩ := p
      simp only [processEntities] at h
      rcases ih h with h1 | h1
      · left
        rw [dlookup]
        by_cases hk : id = k
        · rw [if_pos hk]
          rfl
        · rw [if_neg hk]
          exact h1
      · by_cases hk : k = id
        · subst hk
          left
          rw [dlookup, if_pos rfl]
          rfl
        · right
          rw [dictSet_lookup_ne _ _ hk] at h1
          exact h1

/-- A key of the resolver output either appears in some requested chunk's
response or was already accumulated. -/
theorem resolveChunks_keys {api : LabelApi} :
    ∀ {chunks : List (List String)} {acc out : List (String × Resolved)},
    resolveChunks api chunks acc = Except.ok out →
    ∀ k v, dlookup out k = some v →
      (∃ c ∈ chunks, (dlookup (api c) k).isSome) ∨ dlookup acc k = some v := by
  intro chunks
  induction chunks with
  | nil =>
      intro acc out h k v hk
      simp only [resolveChunks] at h
      cases h
      exact Or.inr hk
  | cons c rest ih =>
      intro acc out h k v hk
      simp only [resolveChunks] at h
      by_cases hemp : (api c).isEmpty
      · rw [if_pos hemp] at h
        simp at h
      · rw [if_neg hemp] at h
        rcases ih h k v hk with h1 | h1
        · obtain ⟨c', hc', hs⟩ := h1
          exact Or.inl ⟨c', List.mem_cons_of_mem _ hc', hs⟩
        · rcases processEntities_lookup h1 with h2 | h2
          · exact Or.inl ⟨c, List.mem_cons_self _ _, h2⟩
          · exact Or.inr h2

/-- The chunk loop fails exactly when some chunk's response is empty. -/
theorem resolveChunks_error_iff {api : LabelApi} :
    ∀ {chunks : List (List String)} {acc : List (String × Resolved)},
    (∃ e, resolveChunks api chunks acc = Except.error e)
    ↔ ∃ c ∈ chunks, api c = [] := by
  intro chunks
  induction chunks with
  | nil =>
      intro acc
      simp [resolveChunks]
  | cons c rest ih =>
      intro acc
      simp only [resolveChunks]
      by_cases hemp : (api c).isEmpty
      · rw [if_pos hemp]
        simp only [List.isEmpty_iff] at hemp
        constructor
        · intro _
          exact ⟨c, List.mem_cons_self _ _, hemp⟩
        · intro _
          exact ⟨PyErr.valueError ("No entity resolved"), rfl⟩
      · rw [if_neg hemp]
        rw [ih]
        constructor
        · rintro ⟨c', hc', h⟩
          exact ⟨c', List.mem_cons_of_mem _ hc', h⟩
        · rintro ⟨c', hc', h⟩
          rcases List.mem_cons.1 hc' with rfl | hc1
          · exact absurd (List.isEmpty_iff.2 h) hemp
          · exact ⟨c', hc1, h⟩

/-- A member pair's key is always found by `dlookup`. -/
theorem mem_dlookup_isSome {α β : Type} [DecidableEq α] {l : List (α × β)}
    {p : α × β} (h : p ∈ l) : (dlookup l p.1).isSome := by
  induction l with
  | nil => cases h
  | cons q rest ih =>
      rcases List.mem_cons.1 h with rfl | h1
      · rw [dlookup, if_pos rfl]
        rfl
      · rw [dlookup]
        by_cases hk : q.1 = p.1
        · rw [if_pos hk]
          rfl
        · rw [if_neg hk]
          exact ih h1

/-- Master behaviour of `get_entities_with_claims` on success: the final state
satisfies the identity-sharing invariant, and every requested id that appears
in no upstream label response keeps its UNRESOLVED placeholder. -/
theorem pipeline_master {ids : List String} {raw : List (String × RawEntity)}
    {api : LabelApi} {res : List (String × Nat)} {st : St}
    (h : get_entities_with_claims ids raw api = Except.ok (res, st)) :
    StInv st
    ∧ ∀ id ∈ ids, (∀ c, dlookup (api c) id = none) →
        ∃ r, dlookup res id = some r ∧ ∃ e : EntityObj, st.arena[r]? = some e
          ∧ e.id = some id ∧ e.label = "UNRESOLVED" ∧ e.description = "UNRESOLVED" := by
  rw [get_entities_with_claims] at h
  by_cases hids : ids.isEmpty
  · rw [if_pos hids] at h
    cases h
    refine ⟨⟨fun p hp => absurd hp (by simp), fun e he => absurd he (by simp)⟩, ?_⟩
    intro id hid
    rw [List.isEmpty_iff.1 hids] at hid
    cases hid
  · rw [if_neg hids] at h
    split at h
    next result0 st0 hinit =>
    have hinit0 : InitOk [] { table := [], arena := [] } := by
      refine ⟨fun p hp => absurd hp (by simp), ?_, fun e he => absurd he (by simp)⟩
      intro id r hr
      simp [dlookup] at hr
    obtain ⟨⟨hwf0, hsync0, hfresh0⟩, _, hmem0⟩ := initPlaceholders_spec hinit hinit0
    have hinv0 : StInv st0 := by
      refine ⟨hwf0, ?_⟩
      intro e he c hc
      rw [(hfresh0 e he).2.2] at hc
      cases hc
    rcases hpar : parseAllEntities result0 raw api ids st0 with e | st1
    · rw [hpar] at h
      simp at h
    · rw [hpar] at h
      simp only [exceptBindOk] at h
      have hsync : ∀ id ∈ ids, ∃ rr, dlookup result0 id = some rr
          ∧ dlookup st0.table (some id) = some rr := by
        intro id hid
        obtain ⟨rr, hrr⟩ := Option.isSome_iff_exists.1 (hmem0 id hid)
        exact ⟨rr, hrr, hsync0 id rr hrr⟩
      obtain ⟨hext1, hinv1⟩ := parseAllEntities_spec hpar hsync
      have hinvSt1 : StInv st1 := hinv1 hinv0
      -- the placeholder slot for a requested id, as it stands in st1
      have hslot : ∀ id ∈ ids, ∃ r, dlookup result0 id = some r
          ∧ dlookup st1.table (some id) = some r
          ∧ ∃ e : EntityObj, st1.arena[r]? = some e ∧ e.id = some id
            ∧ e.label = "UNRESOLVED" ∧ e.description = "UNRESOLVED" := by
        intro id hid
        obtain ⟨rr, hres0, htab0⟩ := hsync id hid
        obtain ⟨e0, he0, hid0⟩ := hwf0 _ (dlookup_mem htab0)
        obtain ⟨hl0, hd0, _⟩ := hfresh0 e0 (List.getElem?_mem he0)
        obtain ⟨e1, he1, hid1, hlab1, hdesc1⟩ := hext1.2 rr e0 he0
        exact ⟨rr, hres0, hext1.1 _ _ htab0,
          e1, he1, by rw [hid1, hid0], by rw [hlab1, hl0], by rw [hdesc1, hd0]⟩
      by_cases hemp : st1.table.isEmpty
      · rw [if_pos hemp] at h
        cases h
        refine ⟨hinvSt1, ?_⟩
        intro id hid _
        obtain ⟨r, hres0, _, e1, he1, hide, hlab, hdesc⟩ := hslot id hid
        exact ⟨r, hres0, e1, he1, hide, hlab, hdesc⟩
      · rw [if_neg hemp] at h
        rcases hkeys : optKeys st1.table with e | keys
        · rw [hkeys] at h
          simp at h
        · rw [hkeys] at h
          simp only [exceptBindOk] at h
          rcases hres : get_entities_labels_and_descriptions keys api with e | resolved
          · rw [hres] at h
            simp at h
          · rw [hres] at h
            simp only [exceptBindOk] at h
            rcases hbf : backfill resolved st1 with e | st2
            · rw [hbf] at h
              simp at h
            · rw [hbf] at h
              simp only [exceptBindOk] at h
              cases h
              refine ⟨backfill_inv hbf hinvSt1, ?_⟩
              intro id hid habsent
              obtain ⟨r, hres0, htab1, e1, he1, hide, hlab, hdesc⟩ := hslot id hid
              -- every resolved key comes from some chunk response, so id is
              -- not among them
              have hchunks : resolveChunks api (chunks50 keys) [] = Except.ok resolved := by
                rw [get_entities_labels_and_descriptions] at hres
                by_cases hke : keys.isEmpty
                · rw [if_pos hke] at hres
                  cases hres
                · rw [if_neg hke] at hres
                  exact hres
              have hnotid : ∀ p ∈ resolved, p.1 ≠ id := by
                intro p hp hpid
                obtain ⟨v, hv⟩ := Option.isSome_iff_exists.1 (mem_dlookup_isSome hp)
                rcases resolveChunks_keys hchunks p.1 v hv with ⟨c, _, hsome⟩ | habs
                · rw [hpid, habsent c] at hsome
                  cases hsome
                · simp [dlookup] at habs
              have huntouched : st.arena[r]? = st1.arena[r]? := by
                refine backfill_untouched hbf ?_
                intro p hp hbad
                obtain ⟨ep, hep, hidp⟩ := hinvSt1.1 _ (dlookup_mem hbad)
                rw [he1] at hep
                cases hep
                rw [hide] at hidp
                exact hnotid p hp (Option.some.inj hidp.symm)
              exact ⟨r, hres0, e1, huntouched.trans he1, hide, hlab, hdesc⟩

/-! ## Claim C1 -/

/-- Fixture for the C1 witness: one requested entity whose statement
references Q2 both as the main value and as a qualifier value, so the same
arena slot must be shared. -/
def c1Raw : List (String × RawEntity) :=
  [("Q1", { claims := [("P31",
      [{ rank := some ("normal")
         mainsnak := { datatype := some ("wikibase-item")
                       value := some (Jv.dict [("id", Jv.str ("Q2"))]) }
         qualifiers := [("P31", [{ datatype := some ("wikibase-item")
                                   value := some (Jv.dict [("id", Jv.str ("Q2"))]) }])] }])] })]

/-- Upstream label responses for the C1 witness. -/
def c1Api : LabelApi := fun _ =>
  [("Q1", { labels := [("en", "one")], descriptions := [("en", "numeral")] }),
   ("Q2", { labels := [("en", "two")], descriptions := [] }),
   ("P31", { labels := [("en", "instance of")], descriptions := [] })]

/-- C1: within one resolution pass there is at most one entity object per id.
First conjunct: `_get_or_create_unresolved_entity` is idempotent — a second
call for the same id returns the first reference and leaves the state
unchanged.  Second conjunct: after a successful `get_entities_with_claims`,
any two references reachable from parsed claims or qualifiers (as subject,
property, or value) that carry the same id are the same arena slot, so the
single batched label back-fill updates every occurrence simultaneously. -/
theorem c1_identity_sharing (k : Option String) (s : St)
    (ids : List String) (raw : List (String × RawEntity)) (api : LabelApi)
    {res : List (String × Nat)} {st : St}
    (h : get_entities_with_claims ids raw api = Except.ok (res, st)) :
    (_get_or_create_unresolved_entity k
        ((_get_or_create_unresolved_entity k s).2)
      = _get_or_create_unresolved_entity k s)
    ∧ (∀ r1 ∈ reachableRefs st, ∀ r2 ∈ reachableRefs st,
        refId st r1 = refId st r2 → r1 = r2) := by
  constructor
  · rcases hl : dlookup s.table k with _ | i
    · simp [_get_or_create_unresolved_entity, hl, dlookup_append_new _ hl]
    · simp [_get_or_create_unresolved_entity, hl]
  · have hinv := (pipeline_master h).1
    intro r1 h1 r2 h2 heq
    have hgood : ∀ r ∈ reachableRefs st, goodRef st r := by
      intro r hr
      obtain ⟨e, he, hr1⟩ := List.mem_flatMap.1 hr
      obtain ⟨c, hc, hr2⟩ := List.mem_flatMap.1 hr1
      exact hinv.2 e he c hc r hr2
    obtain ⟨k1, hk1⟩ := hgood r1 h1
    obtain ⟨k2, hk2⟩ := hgood r2 h2
    obtain ⟨e1, he1, hid1⟩ := hinv.1 _ (dlookup_mem hk1)
    obtain ⟨e2, he2, hid2⟩ := hinv.1 _ (dlookup_mem hk2)
    have hr1 : refId st r1 = some k1 := by
      rw [refId, he1, Option.map_some', hid1]
    have hr2 : refId st r2 = some k2 := by
      rw [refId, he2, Option.map_some', hid2]
    rw [hr1, hr2] at heq
    cases Option.some.inj heq
    rw [hk1] at hk2
    exact Option.some.inj hk2

/-- Witness for `c1_identity_sharing` on a concrete run: the hypothesis is
discharged by computation and both conjuncts are evaluated. -/
theorem c1_identity_sharing_witness :
    ∃ (res : List (String × Nat)) (st : St),
      get_entities_with_claims ["Q1"] c1Raw c1Api = Except.ok (res, st)
      ∧ (_get_or_create_unresolved_entity (some "Q9")
            ((_get_or_create_unresolved_entity (some "Q9")
              { table := [], arena := [] }).2)
          = _get_or_create_unresolved_entity (some "Q9") { table := [], arena := [] })
      ∧ (∀ r1 ∈ reachableRefs st, ∀ r2 ∈ reachableRefs st,
          refId st r1 = refId st r2 → r1 = r2) := by
  refine ⟨_, _, rfl, ?_, ?_⟩
  · exact (c1_identity_sharing (some ("Q9")) { table := [], arena := [] }
      ["Q1"] c1Raw c1Api rfl).1
  · exact (c1_identity_sharing (some ("Q9")) { table := [], arena := [] }
      ["Q1"] c1Raw c1Api rfl).2

/-! ## Claim C6 -/

/-- C6 counterexample: the claim states the resolver raises if and only if the
supplied ID list is empty.  With the non-empty list `["Q1"]` and an upstream
response carrying no entities at all, the chunk guard
`if len(entities_data) == 0` raises `ValueError("No entity resolved")` — so an
id missing from the response can raise after all, when the whole response is
empty. -/
theorem c6_empty_response_counterexample :
    (get_entities_labels_and_descriptions ["Q1"] (fun _ => [])
      = Except.error (PyErr.valueError ("No entity resolved")))
    ∧ (["Q1"] ≠ ([] : List String)) := by
  exact ⟨rfl, by decide⟩

/-- C6 as amended: the resolver raises exactly when the supplied ID list is
empty or some chunk's upstream response carries no entities; for every other
input it returns normally, and in `get_entities_with_claims` a requested id
absent from every upstream label response keeps its UNRESOLVED sentinel label
and description instead of being removed or causing an error. -/
theorem c6_resolver_error_and_retention
    (ids : List String) (api : LabelApi)
    (raw : List (String × RawEntity)) (res : List (String × Nat)) (st : St)
    (id : String) :
    ((∃ e, get_entities_labels_and_descriptions ids api = Except.error e)
      ↔ ids = [] ∨ ∃ c ∈ chunks50 ids, api c = [])
  ∧ (get_entities_with_claims ids raw api = Except.ok (res, st) →
      id ∈ ids → (∀ c, dlookup (api c) id = none) →
      ∃ r, dlookup res id = some r ∧ ∃ e : EntityObj, st.arena[r]? = some e
        ∧ e.label = "UNRESOLVED" ∧ e.description = "UNRESOLVED") := by
  constructor
  · rw [get_entities_labels_and_descriptions]
    by_cases hemp : ids.isEmpty
    · rw [if_pos hemp]
      simp [List.isEmpty_iff.1 hemp]
    · rw [if_neg hemp]
      rw [resolveChunks_error_iff]
      constructor
      · exact Or.inr
      · rintro (h | h)
        · exact absurd (List.isEmpty_iff.2 h) hemp
        · exact h
  · intro h hid habsent
    obtain ⟨r, hres, e, he, _, hlab, hdesc⟩ :=
      (pipeline_master h).2 id hid habsent
    exact ⟨r, hres, e, he, hlab, hdesc⟩

/-- Upstream response for the C6 witness: non-empty, resolving the referenced
entities P31 and Q2 but never containing the requested id Q1. -/
def c6Api : LabelApi := fun _ =>
  [("Q2", { labels := [("en", "two")], descriptions := [] }),
   ("P31", { labels := [("en", "instance of")], descriptions := [] })]

/-- Witness for `c6_resolver_error_and_retention` at concrete inputs: with a
non-empty id list and non-empty responses the resolver does not raise, and a
requested id absent from the response keeps its UNRESOLVED placeholder. -/
theorem c6_resolver_error_and_retention_witness :
    (¬ ∃ e, get_entities_labels_and_descriptions ["Q1"] c6Api = Except.error e)
    ∧ ∃ (res : List (String × Nat)) (st : St),
        get_entities_with_claims ["Q1"] c1Raw c6Api = Except.ok (res, st)
        ∧ ∃ r, dlookup res ("Q1") = some r ∧ ∃ e : EntityObj,
            st.arena[r]? = some e
            ∧ e.label = "UNRESOLVED" ∧ e.description = "UNRESOLVED" := by
  constructor
  · intro hex
    have h := (c6_resolver_error_and_retention ["Q1"] c6Api [] []
      { table := [], arena := [] } ("Q1")).1.1 hex
    revert h
    decide
  · obtain ⟨r, hr, e, he, hl, hd⟩ :=
      (c6_resolver_error_and_retention ["Q1"] c6Api c1Raw _ _ ("Q1")).2
        rfl (by decide) (fun c => rfl)
    exact ⟨_, _, rfl, r, hr, e, he, hl, hd⟩

/-! ## Embedding of `get_hierarchy_data` (src/wikidataMCP/utils.py:345) -/

/-- One value inside a P31/P279 claim of the triplet endpoint: the inner
`value` dict with its optional `QID`, `PID` and `label` fields (the `value`
wrapper key, always present in responses, is collapsed). -/
structure HierVal where
  QID : Option String
  PID : Option String
  label : Option String
  deriving Repr, DecidableEq

/-- One claim group of the triplet endpoint: its property id and values. -/
structure HierClaim where
  PID : String
  values : List HierVal
  deriving Repr, DecidableEq

/-- One entity of the triplet endpoint response. -/
structure HierEntity where
  claims : List HierClaim
  label : Option String
  deriving Repr, DecidableEq

/-- Oracle for `get_triplet_values` restricted to P31/P279, mapping a frontier
of ids to the response. -/
def HierOracle : Type := List String → List (String × HierEntity)

/-- One node of the hierarchy map: target ids may be Python `None` when a
value has neither a QID nor a PID. -/
structure HierNode where
  instanceof : List (Option String)
  subclassof : List (Option String)
  label : Option String
  deriving Repr, DecidableEq

/-- Loop state of `get_hierarchy_data`. -/
structure HierSt where
  frontier : List String
  visited : List (String × HierNode)
  labels : List (String × String)
  level : Nat
  deriving Repr, DecidableEq

/-- The values of the first claim group with the given property id:
`[c['values'] for c in claims if c['PID'] == pid]` followed by `[0]`. -/
def firstGroupValues (pid : String) (claims : List HierClaim) : List HierVal :=
  match claims.filter (fun c => c.PID = pid) with
  | [] => []
  | g :: _ => g.values

/-- Python `v.get('QID', v.get('PID'))`. -/
def valueKey (v : HierVal) : Option String :=
  match v.QID with
  | some q => some q
  | none => v.PID

/-- Insertion-ordered union standing for Python's `set` union; Python's set
iteration order is unspecified, the model fixes insertion order. -/
def setUnion (s l : List (Option String)) : List (Option String) :=
  l.foldl (fun acc x => if x ∈ acc then acc else acc ++ [x]) s

/-- Label bookkeeping of the walker's inner loop
(`for v in instanceof + subclassof: ...`). -/
def hierLabels (vals : List HierVal) (labels : List (String × String)) :
    List (String × String) :=
  vals.foldl (fun acc v =>
    match v.QID with
    | some q => dictSet acc q (v.label.getD (""))
    | none =>
        match v.PID with
        | some p => dictSet acc p (v.label.getD (""))
        | none => acc) labels

/-- Processing of one frontier id inside the walker's `for qid in qids` loop:
skip ids missing from the response, otherwise record the node, extend the
label table, and union the new target ids. -/
def hierProcess (data : List (String × HierEntity)) (q : String)
    (acc : List (String × HierNode) × List (String × String) × List (Option String)) :
    List (String × HierNode) × List (String × String) × List (Option String) :=
  match dlookup data q with
  | none => acc
  | some ent =>
      let instQids := (firstGroupValues ("P31") ent.claims).map valueKey
      let subQids := (firstGroupValues ("P279") ent.claims).map valueKey
      let visited' := dictSet acc.1 q
        { instanceof := instQids, subclassof := subQids, label := none }
      let newQids' := setUnion (setUnion acc.2.2 instQids) subQids
      let labels' := hierLabels (firstGroupValues ("P31") ent.claims
        ++ firstGroupValues ("P279") ent.claims) acc.2.1
      (visited', dictSet labels' q (ent.label.getD ("")), newQids')

/-- Fold of `hierProcess` over the frontier. -/
def hierFold (data : List (String × HierEntity)) :
    List String →
    List (String × HierNode) × List (String × String) × List (Option String) →
    List (String × HierNode) × List (String × String) × List (Option String)
  | [], acc => acc
  | q :: rest, acc => hierFold data rest (hierProcess data q acc)

/-- One level of the walker:
`qids = new_qids - set(hierarchical_data.keys()) - set({None})`. -/
def hierStep (oracle : HierOracle) (s : HierSt) : HierSt :=
  let data := oracle s.frontier
  let folded := hierFold data s.frontier (s.visited, s.labels, [])
  let frontier' := folded.2.2.filterMap (fun o =>
    match o with
    | none => none
    | some q => if (dlookup folded.1 q).isSome then none else some q)
  { frontier := frontier', visited := folded.1, labels := folded.2.1,
    level := s.level + 1 }

/-- Loop guard `while qids and level <= max_depth`. -/
def hierGuard (maxDepth : Int) (s : HierSt) : Bool :=
  !s.frontier.isEmpty && decide ((s.level : Int) ≤ maxDepth)

/-- Fuel-indexed while loop of `get_hierarchy_data`; the fuel
`max_depth.toNat + 1` always suffices because the guard bounds the level. -/
def hierLoopT (oracle : HierOracle) (maxDepth : Int) : Nat → HierSt → HierSt
  | 0, s => s
  | fuel + 1, s =>
      if hierGuard maxDepth s then hierLoopT oracle maxDepth fuel (hierStep oracle s)
      else s

/-- Initial loop state. -/
def hierInit (qid : String) : HierSt :=
  { frontier := [qid], visited := [], labels := [], level := 0 }

/-- Final label back-fill of `get_hierarchy_data`
(`for qid, label in label_data.items(): ...`). -/
def hierFinalize (s : HierSt) : List (String × HierNode) :=
  s.labels.foldl (fun vis p =>
    match dlookup vis p.1 with
    | some node => dictSet vis p.1 { node with label := some p.2 }
    | none => vis) s.visited

/-- Embedding of `get_hierarchy_data` (src/wikidataMCP/utils.py:345). -/
def get_hierarchy_data (oracle : HierOracle) (qid : String) (maxDepth : Int) :
    List (String × HierNode) :=
  hierFinalize (hierLoopT oracle maxDepth (maxDepth.toNat + 1) (hierInit qid))

/-- Invariant of the walker: no visited id is still on the frontier, and the
hierarchy map's keys are distinct. -/
def HierInv (s : HierSt) : Prop :=
  (∀ q ∈ s.frontier, dlookup s.visited q = none)
  ∧ (s.visited.map Prod.fst).Nodup

theorem dictSet_nodupKeys {α β : Type} [DecidableEq α] :
    ∀ {l : List (α × β)} {k : α} {v : β},
    (l.map Prod.fst).Nodup → ((dictSet l k v).map Prod.fst).Nodup := by
  intro l
  induction l with
  | nil =>
      intro k v _
      simp [dictSet]
  | cons p rest ih =>
      intro k v h
      obtain ⟨k', v'⟩ := p
      rw [List.map_cons, List.nodup_cons] at h
      by_cases hk : k' = k
      · subst hk
        rw [dictSet, if_pos rfl, List.map_cons, List.nodup_cons]
        exact h
      · rw [dictSet, if_neg hk, List.map_cons, List.nodup_cons]
        refine ⟨?_, ih h.2⟩
        intro hmem
        obtain ⟨q, hq, hq1⟩ := List.mem_map.1 hmem
        rcases mem_dictSet hq with heq | hq2
        · rw [heq] at hq1
          exact hk hq1.symm
        · exact h.1 (List.mem_map.2 ⟨q, hq2, hq1⟩)

theorem hierProcess_lookup_ne {data : List (String × HierEntity)} {q q0 : String}
    {acc : List (String × HierNode) × List (String × String) × List (Option String)}
    (h : q0 ≠ q) :
    dlookup (hierProcess data q acc).1 q0 = dlookup acc.1 q0 := by
  rw [hierProcess]
  cases dlookup data q with
  | none => rfl
  | some ent => exact dictSet_lookup_ne _ _ h

theorem hierProcess_nodup {data : List (String × HierEntity)} {q : String}
    {acc : List (String × HierNode) × List (String × String) × List (Option String)}
    (h : (acc.1.map Prod.fst).Nodup) :
    ((hierProcess data q acc).1.map Prod.fst).Nodup := by
  rw [hierProcess]
  cases dlookup data q with
  | none => exact h
  | some ent => exact dictSet_nodupKeys h

theorem hierFold_lookup_notmem {data : List (String × HierEntity)} :
    ∀ {qs : List String}
    {acc : List (String × HierNode) × List (String × String) × List (Option String)}
    {q0 : String}, q0 ∉ qs →
    dlookup (hierFold data qs acc).1 q0 = dlookup acc.1 q0 := by
  intro qs
  induction qs with
  | nil =>
      intro acc q0 _
      rfl
  | cons q rest ih =>
      intro acc q0 h
      rw [hierFold]
      rw [ih (fun hmem => h (List.mem_cons_of_mem _ hmem))]
      exact hierProcess_lookup_ne (fun hq => h (hq ▸ List.mem_cons_self _ _))

theorem hierFold_nodup {data : List (String × HierEntity)} :
    ∀ {qs : List String}
    {acc : List (String × HierNode) × List (String × String) × List (Option String)},
    (acc.1.map Prod.fst).Nodup →
    ((hierFold data qs acc).1.map Prod.fst).Nodup := by
  intro qs
  induction qs with
  | nil =>
      intro acc h
      exact h
  | cons q rest ih =>
      intro acc h
      exact ih (hierProcess_nodup h)

/-- One walker level preserves the invariant and never overwrites a recorded
node. -/
theorem hierStep_spec {oracle : HierOracle} {s : HierSt} (h : HierInv s) :
    HierInv (hierStep oracle s)
    ∧ ∀ q0 v, dlookup s.visited q0 = some v →
        dlookup (hierStep oracle s).visited q0 = some v := by
  have hstab : ∀ q0 v, dlookup s.visited q0 = some v →
      dlookup (hierStep oracle s).visited q0 = some v := by
    intro q0 v hv
    have hq0 : q0 ∉ s.frontier := by
      intro hmem
      rw [h.1 q0 hmem] at hv
      cases hv
    show dlookup (hierFold (oracle s.frontier) s.frontier
      (s.visited, s.labels, [])).1 q0 = some v
    rw [hierFold_lookup_notmem hq0]
    exact hv
  refine ⟨⟨?_, ?_⟩, hstab⟩
  · intro q hq
    obtain ⟨o, _, ho⟩ := List.mem_filterMap.1 hq
    rcases o with _ | q'
    · cases ho
    · have ho' : (if (dlookup (hierFold (oracle s.frontier) s.frontier
          (s.visited, s.labels, [])).1 q').isSome = true then none
          else some q') = some q := ho
      by_cases hs : (dlookup (hierFold (oracle s.frontier) s.frontier
        (s.visited, s.labels, [])).1 q').isSome = true
      · rw [if_pos hs] at ho'
        cases ho'
      · rw [if_neg hs] at ho'
        cases ho'
        exact Option.not_isSome_iff_eq_none.1 hs
  · exact hierFold_nodup h.2

/-- Extract the level bound from a true guard. -/
theorem hierGuard_level {maxDepth : Int} {s : HierSt}
    (h : hierGuard maxDepth s = true) : (s.level : Int) ≤ maxDepth := by
  rw [hierGuard] at h
  simp only [Bool.and_eq_true, decide_eq_true_eq] at h
  exact h.2

/-- With fuel at least `max_depth + 1 - level`, one more unit of fuel does not
change the loop's result. -/
theorem hierLoopT_succ {oracle : HierOracle} {maxDepth : Int} :
    ∀ (fuel : Nat) (s : HierSt), maxDepth.toNat + 1 - s.level ≤ fuel →
    hierLoopT oracle maxDepth (fuel + 1) s = hierLoopT oracle maxDepth fuel s := by
  intro fuel
  induction fuel with
  | zero =>
      intro s hle
      have hguard : hierGuard maxDepth s = false := by
        rw [hierGuard]
        have h2 : ¬ ((s.level : Int) ≤ maxDepth) := by omega
        simp [h2]
      show (if hierGuard maxDepth s = true then
          hierLoopT oracle maxDepth 0 (hierStep oracle s) else s)
        = hierLoopT oracle maxDepth 0 s
      rw [hguard]
      simp [hierLoopT]
  | succ fuel ih =>
      intro s hle
      show (if hierGuard maxDepth s = true then
          hierLoopT oracle maxDepth (fuel + 1) (hierStep oracle s) else s)
        = (if hierGuard maxDepth s = true then
          hierLoopT oracle maxDepth fuel (hierStep oracle s) else s)
      by_cases hguard : hierGuard maxDepth s = true
      · rw [if_pos hguard, if_pos hguard]
        apply ih
        have hlev := hierGuard_level hguard
        have hstep : (hierStep oracle s).level = s.level + 1 := rfl
        omega
      · rw [if_neg hguard, if_neg hguard]

/-- With sufficient fuel, the loop exits because the guard is false. -/
theorem hierLoopT_guard {oracle : HierOracle} {maxDepth : Int} :
    ∀ (fuel : Nat) (s : HierSt), maxDepth.toNat + 1 - s.level ≤ fuel →
    hierGuard maxDepth (hierLoopT oracle maxDepth fuel s) = false := by
  intro fuel
  induction fuel with
  | zero =>
      intro s hle
      show hierGuard maxDepth s = false
      rw [hierGuard]
      have h2 : ¬ ((s.level : Int) ≤ maxDepth) := by omega
      simp [h2]
  | succ fuel ih =>
      intro s hle
      show hierGuard maxDepth (if hierGuard maxDepth s = true then
          hierLoopT oracle maxDepth fuel (hierStep oracle s) else s) = false
      by_cases hguard : hierGuard maxDepth s = true
      · rw [if_pos hguard]
        apply ih
        have hlev := hierGuard_level hguard
        have hstep : (hierStep oracle s).level = s.level + 1 := rfl
        omega
      · rw [if_neg hguard]
        exact eq_false_of_ne_true hguard

/-- The loop preserves the invariant and the recorded nodes. -/
theorem hierLoopT_inv {oracle : HierOracle} {maxDepth : Int} :
    ∀ (fuel : Nat) (s : HierSt), HierInv s →
    HierInv (hierLoopT oracle maxDepth fuel s)
    ∧ ∀ q v, dlookup s.visited q = some v →
        dlookup (hierLoopT oracle maxDepth fuel s).visited q = some v := by
  intro fuel
  induction fuel with
  | zero =>
      intro s hinv
      exact ⟨hinv, fun _ _ hv => hv⟩
  | succ fuel ih =>
      intro s hinv
      show HierInv (if hierGuard maxDepth s = true then
          hierLoopT oracle maxDepth fuel (hierStep oracle s) else s) ∧ _
      by_cases hguard : hierGuard maxDepth s = true
      · rw [if_pos hguard]
        obtain ⟨hinv2, hstab2⟩ := @hierStep_spec oracle s hinv
        obtain ⟨hinv3, hstab3⟩ := ih (hierStep oracle s) hinv2
        refine ⟨hinv3, ?_⟩
        intro q v hv
        show dlookup (if hierGuard maxDepth s = true then
            hierLoopT oracle maxDepth fuel (hierStep oracle s) else s).visited q = some v
        rw [if_pos hguard]
        exact hstab3 q v (hstab2 q v hv)
      · rw [if_neg hguard]
        refine ⟨hinv, ?_⟩
        intro q v hv
        show dlookup (if hierGuard maxDepth s = true then
            hierLoopT oracle maxDepth fuel (hierStep oracle s) else s).visited q = some v
        rw [if_neg hguard]
        exact hv

/-! ## Claim C7 -/

/-- C7: the hierarchy walker terminates for every input graph, also cyclic or
diamond-shaped ones: `max_depth.toNat + 1` rounds of fuel always suffice (any
further fuel leaves the result unchanged), the loop stops exactly because the
guard `frontier nonempty and level ≤ max_depth` turns false, the initial
state satisfies the walker invariant, the invariant — no visited id remains
on the frontier, and the hierarchy map's keys are distinct — is preserved
while recorded nodes are never overwritten, and consequently the final map
records each node at most once. -/
theorem c7_hierarchy_walker (oracle : HierOracle) (maxDepth : Int) (root : String) :
    (∀ fuel, maxDepth.toNat + 1 ≤ fuel →
      hierLoopT oracle maxDepth fuel (hierInit root)
        = hierLoopT oracle maxDepth (maxDepth.toNat + 1) (hierInit root))
    ∧ hierGuard maxDepth
        (hierLoopT oracle maxDepth (maxDepth.toNat + 1) (hierInit root)) = false
    ∧ HierInv (hierInit root)
    ∧ (∀ (fuel : Nat) (s : HierSt), HierInv s →
        HierInv (hierLoopT oracle maxDepth fuel s)
        ∧ ∀ q v, dlookup s.visited q = some v →
            dlookup (hierLoopT oracle maxDepth fuel s).visited q = some v)
    ∧ ((hierLoopT oracle maxDepth (maxDepth.toNat + 1)
        (hierInit root)).visited.map Prod.fst).Nodup := by
  have hinit : HierInv (hierInit root) := ⟨fun _ _ => rfl, List.nodup_nil⟩
  refine ⟨?_, ?_, hinit, hierLoopT_inv, ?_⟩
  · intro fuel hle
    obtain ⟨k, rfl⟩ := Nat.le.dest hle
    clear hle
    induction k with
    | zero => rfl
    | succ k ih =>
        have hstep : maxDepth.toNat + 1 + (k + 1) = (maxDepth.toNat + 1 + k) + 1 := by
          omega
        rw [hstep, hierLoopT_succ (maxDepth.toNat + 1 + k) (hierInit root)
          (by simp [hierInit])]
        exact ih
  · exact hierLoopT_guard _ _ (by simp [hierInit])
  · exact (hierLoopT_inv _ _ hinit).1.2

/-- A P279-only entity for the C7 fixture. -/
def mkHierEnt (lab : String) (vals : List HierVal) : HierEntity :=
  { claims := [{ PID := "P279", values := vals }], label := some lab }

/-- A QID-carrying value for the C7 fixture. -/
def mkHierVal (q lab : String) : HierVal :=
  { QID := some q, PID := none, label := some lab }

/-- Graph fixture for the C7 witness: a diamond (Q1 to Q2/Q3, both to Q4) plus
a cycle back from Q4 to Q1. -/
def c7Oracle : HierOracle := fun _ =>
  [("Q1", mkHierEnt ("one") [mkHierVal ("Q2") ("two"), mkHierVal ("Q3") ("three")]),
   ("Q2", mkHierEnt ("two") [mkHierVal ("Q4") ("four")]),
   ("Q3", mkHierEnt ("three") [mkHierVal ("Q4") ("four")]),
   ("Q4", mkHierEnt ("four") [mkHierVal ("Q1") ("one")])]

/-- Witness for `c7_hierarchy_walker` on the cyclic diamond graph with
`max_depth = 5`. -/
theorem c7_hierarchy_walker_witness :
    (hierLoopT c7Oracle 5 8 (hierInit "Q1")
      = hierLoopT c7Oracle 5 ((5 : Int).toNat + 1) (hierInit "Q1"))
    ∧ hierGuard 5 (hierLoopT c7Oracle 5 ((5 : Int).toNat + 1) (hierInit "Q1")) = false
    ∧ HierInv (hierLoopT c7Oracle 5 6 (hierInit "Q1"))
    ∧ ((hierLoopT c7Oracle 5 ((5 : Int).toNat + 1)
        (hierInit "Q1")).visited.map Prod.fst).Nodup := by
  have h := c7_hierarchy_walker c7Oracle 5 "Q1"
  refine ⟨h.1 8 (by decide), h.2.1, ?_, h.2.2.2.2⟩
  exact (h.2.2.2.1 6 (hierInit "Q1") ⟨fun _ _ => rfl, List.nodup_nil⟩).1

/-! ## Embedding of `execute_sparql` (src/wikidata/utils.py:559 and
src/wikidataMCP/utils.py:122) -/

/-- An HTTP response from the SPARQL endpoint.  `bindings` is
`results.bindings` of the parsed JSON body: each binding is a JSON object; a
2xx response is assumed to carry well-formed JSON of that shape (the claims
do not exercise malformed 2xx bodies). -/
structure HttpResponse where
  status : Nat
  text : String
  bindings : List (List (String × Jv))

/-- A pandas data frame, reduced to what the code observes: column labels and
rows of optional cells (an absent cell is NaN). -/
structure Df where
  columns : List String
  rows : List (List (Option Jv))

mutual

/-- Flattening of one JSON object as `pandas.json_normalize` does: nested
dicts contribute dot-joined columns. -/
def flattenFields (pre : String) : List (String × Jv) → List (String × Jv)
  | [] => []
  | (k, v) :: rest => flattenOne pre k v ++ flattenFields pre rest

/-- Helper of `flattenFields` for one entry. -/
def flattenOne (pre k : String) : Jv → List (String × Jv)
  | Jv.dict d => flattenFields (pre ++ k ++ ".") d
  | v => [(pre ++ k, v)]

end

/-- First-appearance deduplication (column order of `json_normalize`). -/
def dedupKeys (l : List String) : List String :=
  l.foldl (fun acc k => if k ∈ acc then acc else acc ++ [k]) []

/-- Embedding of `pandas.json_normalize` on a list of JSON objects: columns
are the flattened keys in order of first appearance, rows carry the cells
(`none` = NaN for a missing key). -/
def json_normalize (bindings : List (List (String × Jv))) : Df :=
  let flat := bindings.map (flattenFields (""))
  let cols := dedupKeys (flat.flatMap (fun b => b.map Prod.fst))
  { columns := cols, rows := flat.map (fun b => cols.map (fun c => dlookup b c)) }

/-- Prefix of `s` before the first occurrence of the (nonempty) separator,
the embedding of Python `s.split(sep)[0]`. -/
def splitHead (s sep : String) : String :=
  String.mk (go s.data)
where go : List Char → List Char
  | [] => []
  | c :: rest => if listIsPre sep.data (c :: rest) then [] else c :: go rest

/-- Embedding of `execute_sparql` (src/wikidata/utils.py:559): HTTP 400 turns
the body text up to the first tab-`at ` marker into a `ValueError`; other 4xx
and 5xx statuses raise (`raise_for_status`); otherwise `json_normalize`
followed by `df.iloc[:K]`.  The row cap is modelled as a natural number, as
the tools' cap is. -/
def wd_execute_sparql (resp : HttpResponse) (K : Nat) : Except PyErr Df :=
  if resp.status = 400 then
    Except.error (PyErr.valueError (splitHead resp.text ("\tat ")))
  else if 400 ≤ resp.status ∧ resp.status < 600 then
    Except.error (PyErr.httpError resp.status)
  else
    let df := json_normalize resp.bindings
    Except.ok { df with rows := df.rows.take K }

/-- The `.value`-column shortener of the newer variant: a cell that is
exactly `http://www.wikidata.org/entity/<capital letter><digits>` becomes the
bare id.  The regex is start-anchored with a terminal `$`; Python's `$` also
accepting one trailing newline is not modelled (no claim exercises it). -/
def shortenUri (s : String) : String :=
  let pre := ("http://www.wikidata.org/entity/").data
  if listIsPre pre s.data then
    match s.data.drop pre.length with
    | c :: rest =>
        if c.isUpper && !rest.isEmpty && rest.all Char.isDigit then
          String.mk (c :: rest)
        else s
    | [] => s
  else s

/-- Embedding of `execute_sparql` (src/wikidataMCP/utils.py:122): as the
older variant, then keep only the `.value` columns renamed to their prefix
before the first dot, shorten entity URIs in string cells (`applymap`), and
`head(K)`.  The `print(df)` side effect is dropped. -/
def mcp_execute_sparql (resp : HttpResponse) (K : Nat) : Except PyErr Df :=
  if resp.status = 400 then
    Except.error (PyErr.valueError (splitHead resp.text ("\tat ")))
  else if 400 ≤ resp.status ∧ resp.status < 600 then
    Except.error (PyErr.httpError resp.status)
  else
    let df := json_normalize resp.bindings
    let valueCols := df.columns.filter (fun c => strEndsWith c (".value"))
    let projected := df.rows.map (fun row =>
      valueCols.map (fun c => (dlookup (df.columns.zip row) c).getD none))
    let shortened := projected.map (fun row => row.map (fun cell =>
      cell.map (fun v => match v with
        | Jv.str s => Jv.str (shortenUri s)
        | other => other)))
    Except.ok { columns := valueCols.map (fun c => splitHead c (".")), rows := shortened.take K }

example : shortenUri ("http://www.wikidata.org/entity/Q42") = "Q42" := by decide
example : shortenUri ("http://www.wikidata.org/entity/Q42x") = "http://www.wikidata.org/entity/Q42x" := by
  decide
example : splitHead ("ParseError\tat line 3") ("\tat ") = "ParseError" := by decide

/-! ## Claim C8 -/

/-- C8: for every SPARQL result set and row cap K, both `execute_sparql`
variants return exactly `min K (number of bindings)` rows, and zero bindings
give a well-formed empty table instead of an error. -/
theorem c8_sparql_row_cap (bindings : List (List (String × Jv)))
    (K : Nat) (t : String) :
    (∃ df : Df, wd_execute_sparql { status := 200, text := t, bindings := bindings } K
        = Except.ok df ∧ df.rows.length = min K bindings.length)
    ∧ (∃ df : Df, mcp_execute_sparql { status := 200, text := t, bindings := bindings } K
        = Except.ok df ∧ df.rows.length = min K bindings.length)
    ∧ (wd_execute_sparql { status := 200, text := t, bindings := [] } K
        = Except.ok { columns := [], rows := [] })
    ∧ (mcp_execute_sparql { status := 200, text := t, bindings := [] } K
        = Except.ok { columns := [], rows := [] }) := by
  refine ⟨⟨_, rfl, ?_⟩, ⟨_, rfl, ?_⟩, by cases K <;> rfl, by cases K <;> rfl⟩
  · show ((json_normalize bindings).rows.take K).length = min K bindings.length
    rw [List.length_take, json_normalize]
    simp
  · show (List.take K _).length = min K bindings.length
    rw [List.length_take]
    congr 1
    show (List.map _ (List.map _ (json_normalize bindings).rows)).length
      = bindings.length
    rw [List.length_map, List.length_map, json_normalize]
    simp

/-! ## Embedding of the `execute_sparql` tool (src/wikidataMCP/tools.py:351) -/

/-- Minimal-quoting CSV field rendering as pandas `to_csv(sep=';')` does: a
field containing the separator, a quote or a line break is wrapped in double
quotes with inner quotes doubled. -/
def csvField (s : String) : String :=
  if s.data.any (fun c => c = ';' ∨ c = '"' ∨ c = '\n' ∨ c = '\r') then
    "\"" ++ String.mk (s.data.flatMap (fun c => if c = '"' then ['"', '"'] else [c])) ++ "\""
  else s

/-- One data-frame cell as CSV text: NaN prints as the empty field, object
cells via `str`. -/
def csvCell (c : Option Jv) : String :=
  match c with
  | none => ""
  | some v => csvField (pyStr v)

/-- Embedding of `Df.to_csv(sep=';', index=True, header=True)`: a header
line whose index column is unnamed, then one line per row led by the
0-based positional index. -/
def dfToCsv (df : Df) : String :=
  let header := String.intercalate (";") (("") :: df.columns.map csvField) ++ "\n"
  let body := ((List.range df.rows.length).zip df.rows).map (fun p =>
    String.intercalate (";") (toString p.1 :: p.2.map csvCell) ++ "\n")
  String.join (header :: body)

/-- Embedding of the `execute_sparql` tool (src/wikidataMCP/tools.py:351):
guard on a whitespace-only query, then `utils.execute_sparql`, mapping
ValueError to its message, a requests-level error to the unavailability
message and anything else to the generic message; on success the data frame
is rendered as semicolon-separated CSV. -/
def tool_execute_sparql (sparql : String) (K : Nat) (resp : HttpResponse) : String :=
  if (pyStrip sparql).data.isEmpty then "SPARQL query cannot be empty."
  else
    match mcp_execute_sparql resp K with
    | Except.error (PyErr.valueError m) => m
    | Except.error (PyErr.httpError _) => "Wikidata is currently unavailable. Please retry shortly."
    | Except.error _ => "Unexpected server error while processing the request."
    | Except.ok df => dfToCsv df

/-! ## Claim C9 -/

/-- C9: for every non-whitespace query, when the SPARQL endpoint answers
with HTTP status 400 the tool returns exactly the response body truncated at
the first "\tat " marker — the `ValueError` message raised by
`execute_sparql` — not a canned message. -/
theorem c9_sparql_400_error_text (q : String) (K : Nat) (resp : HttpResponse)
    (hq : (pyStrip q).data.isEmpty = false) (h400 : resp.status = 400) :
    tool_execute_sparql q K resp = splitHead resp.text ("\tat ") := by
  rw [tool_execute_sparql, hq]
  show (match mcp_execute_sparql resp K with
    | Except.error (PyErr.valueError m) => m
    | Except.error (PyErr.httpError _) => "Wikidata is currently unavailable. Please retry shortly."
    | Except.error _ => "Unexpected server error while processing the request."
    | Except.ok df => dfToCsv df) = splitHead resp.text ("\tat ")
  rw [mcp_execute_sparql, h400]
  simp

/-- Witness for C9: the query "SELECT ?x WHERE ..." with a 400 response
whose body is "Bad aggregate\tat line 5, column 2" yields "Bad aggregate". -/
theorem c9_sparql_400_error_text_witness :
    tool_execute_sparql ("SELECT ?x WHERE") 10
      { status := 400, text := "Bad aggregate\tat line 5, column 2", bindings := [] }
      = "Bad aggregate" := by
  have h := c9_sparql_400_error_text ("SELECT ?x WHERE") 10
    { status := 400, text := "Bad aggregate\tat line 5, column 2", bindings := [] }
    (by decide) rfl
  rw [h]
  decide

/-! ## Embedding of `stringify` and `triplet_values_to_string`
(src/wikidataMCP/utils.py:433 and 452) -/

/-- Python truthiness of a JSON-like value (`if not x`). -/
def pyFalsy : Jv → Bool
  | Jv.str s => s.data.isEmpty
  | Jv.int n => n = 0
  | Jv.dict d => d.isEmpty
  | Jv.list l => l.isEmpty

/-- `str()` of a `.get` result inside an f-string: a missing key prints as
Python `None`. -/
def pyStrOpt (o : Option Jv) : String :=
  match o with
  | none => "None"
  | some v => pyStr v

mutual

/-- Structural size of a JSON value, the fuel bound for `stringify`. -/
def jvSize : Jv → Nat
  | Jv.str _ => 1
  | Jv.int _ => 1
  | Jv.dict d => 1 + jvSizeFields d
  | Jv.list l => 1 + jvSizeList l

/-- Helper of `jvSize` on dict fields. -/
def jvSizeFields : List (String × Jv) → Nat
  | [] => 0
  | (_, v) :: rest => 1 + jvSize v + jvSizeFields rest

/-- Helper of `jvSize` on list elements. -/
def jvSizeList : List Jv → Nat
  | [] => 0
  | v :: rest => 1 + jvSize v + jvSizeList rest

end

/-- Fuel-indexed embedding of `stringify` (src/wikidataMCP/utils.py:433).
Every recursive call in the source descends into a strict sub-value, so
`jvSize` fuel never runs out (the fuel-exhaustion arm models Python's own
recursion limit and is unreachable from the wrapper).  Branch order follows
the source: `values`, `value`, `string`, `QID`, `PID`, `amount`, then
`str(value)`.  A non-list under `values` and a non-string under `string`
raise `TypeError` in Python at the iteration resp. at the caller's string
concatenation; both are modelled as the error at this point. -/
def stringifyF : Nat → Jv → Except PyErr String
  | 0, _ => Except.error (PyErr.typeError ("maximum recursion depth exceeded"))
  | fuel + 1, value =>
    match value with
    | Jv.dict d =>
      match dlookup d ("values") with
      | some (Jv.list vs) => do
          let parts ← vs.mapM (fun v => do
            let inner ← pyGet v ("value")
            stringifyF fuel (inner.getD (Jv.dict [])))
          Except.ok (String.intercalate (", ") parts)
      | some _ => Except.error (PyErr.typeError ("object is not iterable"))
      | none =>
        match dlookup d ("value") with
        | some inner => stringifyF fuel inner
        | none =>
          match dlookup d ("string") with
          | some (Jv.str s) => Except.ok s
          | some _ => Except.error (PyErr.typeError ("can only concatenate str"))
          | none =>
            if (dlookup d ("QID")).isSome then
              Except.ok (pyStrOpt (dlookup d ("label")) ++ " (" ++ pyStrOpt (dlookup d ("QID")) ++ ")")
            else if (dlookup d ("PID")).isSome then
              Except.ok (pyStrOpt (dlookup d ("label")) ++ " (" ++ pyStrOpt (dlookup d ("PID")) ++ ")")
            else if (dlookup d ("amount")).isSome then
              Except.ok (pyStrip (pyStrOpt (dlookup d ("amount"))
                ++ " " ++ ((dlookup d ("unit")).map pyStr).getD ("")))
            else Except.ok (pyStr value)
    | v => Except.ok (pyStr v)

/-- Embedding of `stringify`, seeded with always-sufficient fuel. -/
def stringify (v : Jv) : Except PyErr String :=
  stringifyF (jvSize v) v

example : stringify (Jv.dict [("QID", Jv.str ("Q5")), ("label", Jv.str ("human"))])
    = Except.ok ("human (Q5)") := by decide
example : stringify (Jv.dict [("amount", Jv.str ("+5"))]) = Except.ok ("+5") := by decide
example : stringify (Jv.dict [("QID", Jv.str ("Q5"))]) = Except.ok ("None (Q5)") := by decide

/-- One `claim_value` round of the inner loop of `triplet_values_to_string`:
appends the entity/property/value line, the rank line and the qualifier and
reference blocks to `output`. -/
def processValue (entity : Jv) (entity_id property_id : String) (claim : Jv)
    (output : String) (claim_value : Jv) : Except PyErr String := do
  let output := if output.data.isEmpty then output else output ++ "\n"
  let lbl ← pySubscript entity ("label")
  let output := output ++ pyStr lbl ++ " (" ++ entity_id ++ "): "
  let plbl ← pySubscript claim ("property_label")
  let output := output ++ pyStr plbl ++ " (" ++ property_id ++ "): "
  let v ← pySubscript claim_value ("value")
  let sv ← stringify v
  let output := output ++ sv ++ "\n"
  let rank ← pyGet claim_value ("rank")
  let output := output ++ "  Rank: " ++ (match rank with
    | none => "normal"
    | some r => pyStr r) ++ "\n"
  let quals ← pyGet claim_value ("qualifiers")
  let qualsV := quals.getD (Jv.list [])
  let output ←
    if pyFalsy qualsV then Except.ok output
    else match qualsV with
      | Jv.list ql =>
          ql.foldlM (fun o q => do
            let qpl ← pySubscript q ("property_label")
            let qpid ← pySubscript q ("PID")
            let sq ← stringify q
            Except.ok (o ++ "    - " ++ pyStr qpl ++ " (" ++ pyStr qpid ++ "): " ++ sq ++ "\n"))
            (output ++ "  Qualifier:\n")
      | _ => Except.error (PyErr.typeError ("object is not iterable"))
  let refs ← pyGet claim_value ("references")
  let refsV := refs.getD (Jv.list [])
  if pyFalsy refsV then Except.ok output
  else match refsV with
    | Jv.list rl => do
        let p ← rl.foldlM (fun (p : String × Nat) r => do
          let o := p.1 ++ "  Reference " ++ toString p.2 ++ ":\n"
          match r with
          | Jv.list rcl => do
              let o ← rcl.foldlM (fun o rc => do
                let rpl ← pySubscript rc ("property_label")
                let rpid ← pySubscript rc ("PID")
                let src ← stringify rc
                Except.ok (o ++ "    - " ++ pyStr rpl ++ " (" ++ pyStr rpid ++ "): " ++ src ++ "\n")) o
              Except.ok (o, p.2 + 1)
          | _ => Except.error (PyErr.typeError ("object is not iterable"))) (output, (1 : Nat))
        Except.ok p.1
    | _ => Except.error (PyErr.typeError ("object is not iterable"))

/-- One `claim` round of the outer loop: iterates `claim.get("values", [])`. -/
def processClaim (entity : Jv) (entity_id property_id : String)
    (output : String) (claim : Jv) : Except PyErr String := do
  let vs ← pyGet claim ("values")
  match vs.getD (Jv.list []) with
  | Jv.list vl => vl.foldlM (processValue entity entity_id property_id claim) output
  | _ => Except.error (PyErr.typeError ("object is not iterable"))

/-- Embedding of `triplet_values_to_string` (src/wikidataMCP/utils.py:452):
`none` models the early `return None` on falsy `entity.get("claims")`;
otherwise the accumulated text is returned stripped. -/
def triplet_values_to_string (entity_id property_id : String) (entity : Jv) :
    Except PyErr (Option String) := do
  let claims ← pyGet entity ("claims")
  match claims with
  | none => Except.ok none
  | some c =>
    if pyFalsy c then Except.ok none
    else match c with
      | Jv.list cl => do
          let out ← cl.foldlM (processClaim entity entity_id property_id) ("")
          Except.ok (some (pyStrip out))
      | _ => Except.error (PyErr.typeError ("object is not iterable"))

/-! ## Embedding of `hierarchy_to_json` (src/wikidataMCP/utils.py:414) and
`json.dumps(·, indent=2)` -/

/-- The JSON tree built by `hierarchy_to_json`: a leaf string at the depth
cutoff, otherwise a one-key object holding the two child lists. -/
inductive HJson where
  | leaf (s : String)
  | node (title : String) (inst : List HJson) (sub : List HJson)

/-- Fuel-indexed body of `hierarchy_to_json`: fuel `level.toNat` is faithful
since `level <= 0` iff the fuel is zero and recursion is at `level-1` on a
positive level.  `data[qid]` and `['label']` raise `KeyError` when absent
(the label key exists only when the label lookup returned one); child ids
are skipped unless present in `data` (`None` never is). -/
def hjAux : Nat → String → List (String × HierNode) → Except PyErr HJson
  | fuel, qid, data =>
    match dlookup data qid with
    | none => Except.error (PyErr.keyError qid)
    | some node =>
      match node.label with
      | none => Except.error (PyErr.keyError ("label"))
      | some l =>
        match fuel with
        | 0 => Except.ok (HJson.leaf (l ++ " (" ++ qid ++ ")"))
        | fuel + 1 => do
          let keep := fun (o : Option String) => match o with
            | some q => if (dlookup data q).isSome then some q else none
            | none => none
          let inst ← (node.instanceof.filterMap keep).mapM (fun q => hjAux fuel q data)
          let sub ← (node.subclassof.filterMap keep).mapM (fun q => hjAux fuel q data)
          Except.ok (HJson.node (l ++ " (" ++ qid ++ ")") inst sub)

/-- Embedding of `hierarchy_to_json`. -/
def hierarchy_to_json (qid : String) (data : List (String × HierNode))
    (level : Int) : Except PyErr HJson :=
  hjAux level.toNat qid data

/-- JSON string escaping as `json.dumps` performs it for the characters that
occur here; `\uXXXX` escaping of control and non-ASCII characters is not
modelled (no claim exercises it). -/
def jsonEscape (s : String) : String :=
  String.join (s.data.map (fun c =>
    if c = '"' then "\\\"" else if c = '\\' then "\\\\"
    else if c = '\n' then "\\n" else if c = '\t' then "\\t"
    else if c = '\r' then "\\r" else String.mk [c]))

/-- An indentation run of spaces. -/
def pad (n : Nat) : String :=
  String.mk (List.replicate n ' ')

mutual

/-- `json.dumps(·, indent=2)` of the hierarchy tree; `ind` is the indentation
of the value's own container lines. -/
def hjDump (ind : Nat) : HJson → String
  | HJson.leaf s => "\"" ++ jsonEscape s ++ "\""
  | HJson.node title inst sub =>
      "\x7b\n" ++ pad (ind + 2) ++ "\"" ++ jsonEscape title ++ "\": \x7b\n"
      ++ pad (ind + 4) ++ "\"instance of (P31)\": " ++ hjDumpList (ind + 4) inst ++ ",\n"
      ++ pad (ind + 4) ++ "\"subclass of (P279)\": " ++ hjDumpList (ind + 4) sub ++ "\n"
      ++ pad (ind + 2) ++ "\x7d\n" ++ pad ind ++ "\x7d"

/-- List rendering of `json.dumps(·, indent=2)`: `[]` when empty, else one
element per line indented two past the key line. -/
def hjDumpList (ind : Nat) : List HJson → String
  | [] => "[]"
  | x :: xs =>
      "[\n" ++ pad (ind + 2) ++ hjDump (ind + 2) x ++ hjDumpItems (ind + 2) xs
      ++ "\n" ++ pad ind ++ "]"

/-- Comma-prefixed rendering of the remaining list elements. -/
def hjDumpItems (ind : Nat) : List HJson → String
  | [] => ""
  | y :: ys => ",\n" ++ pad ind ++ hjDump ind y ++ hjDumpItems ind ys

end

/-! ## Embedding of the query tools (src/wikidataMCP/tools.py:221, 264, 329)

Each upstream `await utils...` network call is a parameter: an `Except`
outcome for the statement tools (in the deployed code the call itself raises
`TypeError`, since `tools.py` passes a `qualifiers=` keyword the
`utils` functions do not accept — that lands in the catch-all arm and does
not reach the guards), and a total oracle for the hierarchy tool, whose
walker never raises in this model, so its `RequestException` arm is elided. -/

/-- Embedding of the `get_statements` tool (src/wikidataMCP/tools.py:221):
whitespace-only id guard, exception mapping, then empty-result and
missing-key fallbacks around `result.get(entity_id, ...)`. -/
def tool_get_statements (entity_id : String)
    (upstream : Except PyErr (List (String × String))) : String :=
  if (pyStrip entity_id).data.isEmpty then "Entity ID cannot be empty."
  else
    match upstream with
    | Except.error (PyErr.httpError _) => "Wikidata is currently unavailable. Please retry shortly."
    | Except.error _ => "Unexpected server error while processing the request."
    | Except.ok result =>
        if result.isEmpty then "Entity " ++ entity_id ++ " not found"
        else (dlookup result entity_id).getD ("Entity " ++ entity_id ++ " not found")

/-- Embedding of the `get_statement_values` tool
(src/wikidataMCP/tools.py:264).  `triplet_values_to_string` runs outside the
`try`, so its exceptions escape the tool: the result type is `Except`.
`if not entity` merges the missing-key and falsy-entity cases, `if not text`
the `None` and empty-string cases. -/
def tool_get_statement_values (entity_id property_id : String)
    (upstream : Except PyErr (List (String × Jv))) : Except PyErr String :=
  if (pyStrip entity_id).data.isEmpty then Except.ok ("Entity ID cannot be empty.")
  else if (pyStrip property_id).data.isEmpty then Except.ok ("Property ID cannot be empty.")
  else
    match upstream with
    | Except.error (PyErr.httpError _) =>
        Except.ok ("Wikidata is currently unavailable. Please retry shortly.")
    | Except.error _ => Except.ok ("Unexpected server error while processing the request.")
    | Except.ok result =>
      if result.isEmpty then Except.ok ("Entity " ++ entity_id ++ " not found")
      else
        match dlookup result entity_id with
        | none => Except.ok ("Entity " ++ entity_id ++ " not found")
        | some entity =>
          if pyFalsy entity then Except.ok ("Entity " ++ entity_id ++ " not found")
          else do
            let text ← triplet_values_to_string entity_id property_id entity
            match text with
            | none => Except.ok ("No statement found for " ++ entity_id
                ++ " with property " ++ property_id)
            | some t =>
              if t.data.isEmpty then
                Except.ok ("No statement found for " ++ entity_id
                  ++ " with property " ++ property_id)
              else Except.ok t

/-- Embedding of the `get_instance_and_subclass_hierarchy` tool
(src/wikidataMCP/tools.py:329): whitespace-only id guard, the walker, the
`not result or entity_id not in result` fallback, then `hierarchy_to_json`
rendered by `json.dumps(·, indent=2)` with its own catch-all. -/
def tool_get_instance_and_subclass_hierarchy (entity_id : String) (maxDepth : Int)
    (oracle : HierOracle) : String :=
  if (pyStrip entity_id).data.isEmpty then "Entity ID cannot be empty."
  else
    let result := get_hierarchy_data oracle entity_id maxDepth
    if result.isEmpty || (dlookup result entity_id).isNone then
      "Entity " ++ entity_id ++ " not found"
    else
      match hierarchy_to_json entity_id result maxDepth with
      | Except.ok hj => hjDump 0 hj
      | Except.error _ => "Unexpected server error while processing the request."

/-! ## Claim C10 -/

/-- C10: a whitespace-only required argument makes each query tool return its
fixed message — "Entity ID cannot be empty." / "Property ID cannot be
empty." / "SPARQL query cannot be empty." — for every upstream outcome and
oracle, i.e. before and instead of any upstream request. -/
theorem c10_empty_argument_guards (s : String) (K : Nat) (maxDepth : Int)
    (up1 : Except PyErr (List (String × String)))
    (up2 up3 : Except PyErr (List (String × Jv)))
    (oracle : HierOracle) (resp : HttpResponse)
    (hs : pyStrip s = "") :
    tool_get_statements s up1 = "Entity ID cannot be empty."
    ∧ tool_get_statement_values s ("P31") up2 = Except.ok ("Entity ID cannot be empty.")
    ∧ tool_get_statement_values ("Q42") s up3 = Except.ok ("Property ID cannot be empty.")
    ∧ tool_get_instance_and_subclass_hierarchy s maxDepth oracle = "Entity ID cannot be empty."
    ∧ tool_execute_sparql s K resp = "SPARQL query cannot be empty." := by
  have hE : (pyStrip s).data.isEmpty = true := by rw [hs]; rfl
  have hQ : (pyStrip ("Q42")).data.isEmpty = false := by decide
  refine ⟨?_, ?_, ?_, ?_, ?_⟩
  · rw [tool_get_statements.eq_def, if_pos hE]
  · rw [tool_get_statement_values.eq_def, if_pos hE]
  · rw [tool_get_statement_values.eq_def, if_neg (by rw [hQ]; exact Bool.false_ne_true),
      if_pos hE]
  · rw [tool_get_instance_and_subclass_hierarchy.eq_def, if_pos hE]
  · rw [tool_execute_sparql.eq_def, if_pos hE]

/-- Witness for C10 at the blank id "  \t " with concrete upstream outcomes
and an empty oracle. -/
theorem c10_empty_argument_guards_witness :
    tool_get_statements ("  \t ") (Except.ok []) = "Entity ID cannot be empty."
    ∧ tool_get_statement_values ("  \t ") ("P31") (Except.ok [])
        = Except.ok ("Entity ID cannot be empty.")
    ∧ tool_get_statement_values ("Q42") ("  \t ") (Except.ok [])
        = Except.ok ("Property ID cannot be empty.")
    ∧ tool_get_instance_and_subclass_hierarchy ("  \t ") 5 (fun _ => [])
        = "Entity ID cannot be empty."
    ∧ tool_execute_sparql ("  \t ") 10 { status := 200, text := "", bindings := [] }
        = "SPARQL query cannot be empty." :=
  c10_empty_argument_guards ("  \t ") 10 5 (Except.ok []) (Except.ok []) (Except.ok [])
    (fun _ => []) { status := 200, text := "", bindings := [] } (by decide)
